import Mathlib

/-!
Verification of the sequential-modular flowsheet initialization subsystem of
`idaes/power_generation/flowsheets/rsofc/rsofc_soec_mode_flowsheet_v6.py`.

The network state is embedded shallowly: every port-level variable is a key
(port name, variable name) holding a rational value and a fixed flag, exactly
the two attributes the script manipulates (`.fix(v)`, `.value = v`,
`.unfix()`).  The hand-written initialization passes are embedded as explicit
event traces; the unit-local `initialize()` routines and the global solver are
external collaborators and appear as opaque state transformers constrained by
frame conditions.
-/

namespace Rsofc

/-- A variable slot of a port.  Distinguishing the variable kinds structurally
(rather than by raw strings) mirrors the distinct Pyomo variable objects
(`flow_mol`, `temperature`, `pressure`, `enth_mol`, `mole_frac_comp[j]`). -/
inductive PVar where
  | flow_mol
  | temperature
  | pressure
  | enth_mol
  | mole_frac (j : String)
  | n_cells
  | E_cell
  | heat_duty
  | split_fraction (o : String)
  | scalar (nm : String)
deriving DecidableEq, Repr

/-- A port-level variable key: (port or block name, variable). -/
abbrev PKey := String × PVar

/-- The mutable network state: every port variable has a current value and a
fixed flag, exactly the attributes touched by `fix`, `unfix` and `.value`
assignments in the script. -/
structure VolState where
  val : PKey → ℚ
  fixd : PKey → Bool

/-- Pyomo `var.fix(x)`: set the value and mark the variable fixed. -/
def fixVar (k : PKey) (x : ℚ) (s : VolState) : VolState :=
  { val := Function.update s.val k x, fixd := Function.update s.fixd k true }

/-- Pyomo `var.value = x` (also written `var[:] = x` in the script): set the
value, leave the fixed flag untouched. -/
def setVal (k : PKey) (x : ℚ) (s : VolState) : VolState :=
  { s with val := Function.update s.val k x }

/-- Pyomo `var.unfix()` on a single variable. -/
def unfixVar (k : PKey) (s : VolState) : VolState :=
  { s with fixd := Function.update s.fixd k false }

/-- Pyomo `port.unfix()`: unfix every member variable of the port. -/
def unfixPort (p : String) (s : VolState) : VolState :=
  { s with fixd := fun k => if k.1 = p then false else s.fixd k }

/-- Source `_set_port(port, F, T, P, comp, fix)` (flowsheet script, lines
75-88): with `fix=True` it fixes `flow_mol`, `temperature`, `pressure` and the
listed composition entries to the given values; with `fix=False` it assigns
the same values without touching any fixed flag. -/
def set_port (port : String) (F T P : ℚ) (comp : List (String × ℚ))
    (fix : Bool) (s : VolState) : VolState :=
  if fix then
    comp.foldl (fun t kv => fixVar (port, PVar.mole_frac kv.1) kv.2 t)
      (fixVar (port, PVar.pressure) P
        (fixVar (port, PVar.temperature) T
          (fixVar (port, PVar.flow_mol) F s)))
  else
    comp.foldl (fun t kv => setVal (port, PVar.mole_frac kv.1) kv.2 t)
      (setVal (port, PVar.pressure) P
        (setVal (port, PVar.temperature) T
          (setVal (port, PVar.flow_mol) F s)))

/-- Tear-guess composition used for `preheat_split.inlet` in `set_guess`
(air composition, all fuel assumed combusted). -/
def comp_guess : List (String × ℚ) :=
  [("O2", 0.2074), ("H2O", 0.0099), ("CO2", 0.0003), ("N2", 0.7732),
   ("Ar", 0.0092)]

/-- Air feed composition fixed in `set_inputs`. -/
def air_comp : List (String × ℚ) :=
  [("O2", 0.2074), ("H2O", 0.0099), ("CO2", 0.0003), ("N2", 0.7732),
   ("Ar", 0.0092)]

/-- Natural-gas feed composition fixed in `set_inputs`. -/
def ng_comp : List (String × ℚ) :=
  [("CH4", 0.931), ("C2H6", 0.0320), ("C3H8", 0.007), ("C4H10", 0.004),
   ("O2", 1e-5), ("H2O", 1e-5), ("CO2", 0.01), ("N2", 0.0160), ("Ar", 1e-5)]

/-- Composition guess fixed on the soec fuel-channel inlet (z = 0) in
`set_guess`. -/
def soec_fc_guess : List (String × ℚ) := [("H2O", 0.90), ("H2", 0.10)]

/-- Composition guess fixed on the soec air-channel inlet (z = 0) in
`set_guess`. -/
def soec_ac_guess : List (String × ℚ) :=
  [("O2", 0.2074), ("H2O", 0.0099), ("N2", 0.7732), ("Ar", 0.0092),
   ("CO2", 0.0003)]

/-- Composition fixed on the (vestigial) `mxa1.recycle` feed port in
`set_inputs`. -/
def mxa1_recycle_comp : List (String × ℚ) :=
  [("O2", 0.2074), ("H2O", 0.0099), ("CO2", 0.0003), ("N2", 0.7732),
   ("Ar", 0.0092)]

/-- Source `set_guess(m)` (lines 1280-1307): fixes the tear destination
`preheat_split.inlet` to the operator guess (F=6000, T=700, P=1.04e5, air
composition) and fixes the soec fuel/air channel inlet (z = 0) temperature,
pressure and mole fractions. -/
def set_guess (s : VolState) : VolState :=
  let s := set_port "preheat_split.inlet" 6000 700 1.04e5 comp_guess true s
  let s := fixVar ("soec.fc", PVar.temperature) 1073.15 s
  let s := fixVar ("soec.fc", PVar.pressure) 1e5 s
  let s := fixVar ("soec.fc", PVar.mole_frac "H2O") 0.90 s
  let s := fixVar ("soec.fc", PVar.mole_frac "H2") 0.10 s
  let s := fixVar ("soec.ac", PVar.temperature) 1073.15 s
  let s := fixVar ("soec.ac", PVar.pressure) 1e5 s
  let s := fixVar ("soec.ac", PVar.mole_frac "O2") 0.2074 s
  let s := fixVar ("soec.ac", PVar.mole_frac "H2O") 0.0099 s
  let s := fixVar ("soec.ac", PVar.mole_frac "N2") 0.7732 s
  let s := fixVar ("soec.ac", PVar.mole_frac "Ar") 0.0092 s
  let s := fixVar ("soec.ac", PVar.mole_frac "CO2") 0.0003 s
  s

/-- Source `set_inputs(m)` (lines 1310-1368).  The parameter `hin` stands for
the externally computed `iapws95.htpx(T=310 K, P=101325 Pa)` molar enthalpy
(an external property-package call, treated as an input). -/
def set_inputs (hin : ℚ) (s : VolState) : VolState :=
  let s := fixVar ("fs", PVar.scalar "cmb_temperature") 1300 s
  let s := fixVar ("fs", PVar.scalar "soec_steam_temperature") 1073.15 s
  let s := set_port "air_compressor_s1.inlet" 5000 330 1.01325e5 air_comp true s
  let s := set_port "ng_preheater.tube_inlet" 380 330 1.04e5 ng_comp true s
  let s := set_port "air_blower.inlet" 3000 330 1.01325e5 air_comp true s
  let s := set_port "mxa1.recycle" 1e-3 1073.15 1.04e5 mxa1_recycle_comp true s
  let s := fixVar ("aux_boiler_feed_pump.inlet", PVar.flow_mol) 2000 s
  let s := fixVar ("aux_boiler_feed_pump.inlet", PVar.enth_mol) hin s
  let s := fixVar ("aux_boiler_feed_pump.inlet", PVar.pressure) 101325 s
  let s := fixVar ("soec", PVar.n_cells) 400e6 s
  let s := fixVar ("soec", PVar.heat_duty) 0 s
  let s := fixVar ("soec.fc", PVar.mole_frac "H2") 0.10 s
  let s := fixVar ("soec.fc", PVar.flow_mol) 8e-6 s
  let s := fixVar ("soec.ac", PVar.flow_mol) 1e-5 s
  s

/-- Sum of the (component, fraction) entries of a composition vector. -/
def compSum (c : List (String × ℚ)) : ℚ := (c.map Prod.snd).sum

/-- All composition vectors supplied to the initialization pass by
`set_guess` and `set_inputs` (tear guesses and feed compositions). -/
def suppliedComps : List (List (String × ℚ)) :=
  [comp_guess, soec_fc_guess, soec_ac_guess, air_comp, ng_comp,
   mxa1_recycle_comp]

/-! ## State propagation along arcs

`iinit.propagate_state(arc)` and `copy_port_values` are idaes framework
routines (not under `src/`).  Modelled from the spec: `propagate(arc)` copies
the fully determined state at the arc's source port onto the arc's
destination port, and a tear arc is never auto-propagated through this call
because its destination is operator-fixed — i.e. a fixed destination variable
is never overwritten. -/

/-- Copy one variable across an arc: the destination variable receives the
source variable's value unless the destination is fixed. -/
def copyVar (srcK dstK : PKey) (s : VolState) : VolState :=
  if s.fixd dstK then s else setVal dstK (s.val srcK) s

/-- Modelled from the spec: `propagate(arc)` copies the source-port state
variable-by-variable onto the destination port, skipping operator-fixed
destination variables. -/
def propagateState (srcPort dstPort : String) (vars : List PVar)
    (s : VolState) : VolState :=
  vars.foldl (fun t v => copyVar (srcPort, v) (dstPort, v) t) s

/-! ## Arc topology (from the `Arc(...)` declarations of the script) -/

/-- An arc record: owning source unit, owning destination unit, the two port
names, and the member variables of the connected ports (determined by the
property package of the connected units). -/
structure ArcDef where
  src : String
  dst : String
  srcPort : String
  dstPort : String
  vars : List PVar
deriving DecidableEq, Repr

/-- Port members for `air_prop` streams (components O2, H2O, CO2, N2, Ar). -/
def airVars : List PVar :=
  [PVar.flow_mol, PVar.temperature, PVar.pressure, PVar.mole_frac "O2",
   PVar.mole_frac "H2O", PVar.mole_frac "CO2", PVar.mole_frac "N2",
   PVar.mole_frac "Ar"]

/-- Port members for `fg_prop` streams (fuel components). -/
def fgVars : List PVar :=
  [PVar.flow_mol, PVar.temperature, PVar.pressure, PVar.mole_frac "CH4",
   PVar.mole_frac "C2H6", PVar.mole_frac "C3H8", PVar.mole_frac "C4H10",
   PVar.mole_frac "O2", PVar.mole_frac "H2O", PVar.mole_frac "CO2",
   PVar.mole_frac "N2", PVar.mole_frac "Ar"]

/-- Port members for `water_prop` (iapws95) streams. -/
def waterVars : List PVar := [PVar.flow_mol, PVar.enth_mol, PVar.pressure]

/-- Port members for `h2_prop` streams (components H2, H2O). -/
def h2Vars : List PVar :=
  [PVar.flow_mol, PVar.temperature, PVar.pressure, PVar.mole_frac "H2",
   PVar.mole_frac "H2O"]

/-- Port members for `h2_compress_prop` streams (component H2). -/
def h2compressVars : List PVar :=
  [PVar.flow_mol, PVar.temperature, PVar.pressure, PVar.mole_frac "H2"]

/-- Port members for `CO2_H2O_VLE` streams (components CO2, H2O). -/
def co2h2oVars : List PVar :=
  [PVar.flow_mol, PVar.temperature, PVar.pressure, PVar.mole_frac "CO2",
   PVar.mole_frac "H2O"]

/-- Every `Arc` declared by the script, keyed by its name: source unit,
destination unit, connected ports, and port member variables. -/
def arcTable : List (String × ArcDef) :=
  [("STAGE_1_OUT", ⟨"air_compressor_s1", "intercooler_s1",
      "air_compressor_s1.outlet", "intercooler_s1.inlet", airVars⟩),
   ("IC_1_OUT", ⟨"intercooler_s1", "air_compressor_s2",
      "intercooler_s1.outlet", "air_compressor_s2.inlet", airVars⟩),
   ("STAGE_2_OUT", ⟨"air_compressor_s2", "intercooler_s2",
      "air_compressor_s2.outlet", "intercooler_s2.inlet", airVars⟩),
   ("ba01", ⟨"intercooler_s2", "ASU", "intercooler_s2.outlet",
      "ASU.inlet", airVars⟩),
   ("o04", ⟨"preheat_split", "ng_preheater", "preheat_split.ng",
      "ng_preheater.shell_inlet", airVars⟩),
   ("o05", ⟨"preheat_split", "oxygen_preheater", "preheat_split.air",
      "oxygen_preheater.shell_inlet", airVars⟩),
   ("ba02", ⟨"ASU", "oxygen_preheater", "ASU.O2_outlet",
      "oxygen_preheater.tube_inlet", airVars⟩),
   ("cmb_mix_in", ⟨"oxygen_preheater", "pre_oxycombustor_translator",
      "oxygen_preheater.tube_outlet", "pre_oxycombustor_translator.inlet",
      airVars⟩),
   ("ba03", ⟨"pre_oxycombustor_translator", "cmb_mix",
      "pre_oxycombustor_translator.outlet", "cmb_mix.air", fgVars⟩),
   ("bng01", ⟨"ng_preheater", "cmb_mix", "ng_preheater.tube_outlet",
      "cmb_mix.ng", fgVars⟩),
   ("bng02", ⟨"cmb_mix", "cmb", "cmb_mix.outlet", "cmb.inlet", fgVars⟩),
   ("cmb_out", ⟨"cmb", "post_oxycombustor_translator", "cmb.outlet",
      "post_oxycombustor_translator.inlet", fgVars⟩),
   ("fg01", ⟨"post_oxycombustor_translator", "air_preheater_2",
      "post_oxycombustor_translator.outlet", "air_preheater_2.shell_inlet",
      airVars⟩),
   ("s01", ⟨"aux_boiler_feed_pump", "bhx1", "aux_boiler_feed_pump.outlet",
      "bhx1.tube_inlet", waterVars⟩),
   ("s02", ⟨"bhx1", "bhx2", "bhx1.tube_outlet", "bhx2.inlet", waterVars⟩),
   ("s03", ⟨"bhx2", "main_steam_split", "bhx2.outlet",
      "main_steam_split.inlet", waterVars⟩),
   ("a01", ⟨"air_blower", "air_preheater_1", "air_blower.outlet",
      "air_preheater_1.tube_inlet", airVars⟩),
   ("a02", ⟨"air_preheater_1", "air_preheater_2",
      "air_preheater_1.tube_outlet", "air_preheater_2.tube_inlet", airVars⟩),
   ("h01", ⟨"soec", "spltf1", "soec.outlet_fc_mult", "spltf1.inlet",
      h2Vars⟩),
   ("o01", ⟨"soec", "splta1", "soec.outlet_ac_mult", "splta1.inlet",
      airVars⟩),
   ("s10", ⟨"main_steam_split", "mxf1", "main_steam_split.h_side_adapt",
      "mxf1.water", h2Vars⟩),
   ("hr01", ⟨"spltf1", "mxf1", "spltf1.recycle", "mxf1.recycle", h2Vars⟩),
   ("s12", ⟨"mxf1", "soec", "mxf1.outlet", "soec.inlet_fc_mult", h2Vars⟩),
   ("s13", ⟨"mxa1", "soec", "mxa1.outlet", "soec.inlet_ac_mult", airVars⟩),
   ("a03", ⟨"air_preheater_2", "mxa1", "air_preheater_2.tube_outlet",
      "mxa1.air", airVars⟩),
   ("h02", ⟨"spltf1", "bhx1", "spltf1.out", "bhx1.shell_inlet", h2Vars⟩),
   ("o02", ⟨"splta1", "air_preheater_1", "splta1.out",
      "air_preheater_1.shell_inlet", airVars⟩),
   ("o03", ⟨"air_preheater_1", "preheat_split", "air_preheater_1.shell_outlet",
      "preheat_split.inlet", airVars⟩),
   ("h03", ⟨"bhx1", "hcmp_ic01", "bhx1.shell_outlet_drop_water",
      "hcmp_ic01.inlet", h2compressVars⟩),
   ("h04", ⟨"hcmp_ic01", "hcmp01", "hcmp_ic01.outlet", "hcmp01.inlet",
      h2compressVars⟩),
   ("h05", ⟨"hcmp01", "hcmp_ic02", "hcmp01.outlet", "hcmp_ic02.inlet",
      h2compressVars⟩),
   ("h06", ⟨"hcmp_ic02", "hcmp02", "hcmp_ic02.outlet", "hcmp02.inlet",
      h2compressVars⟩),
   ("h07", ⟨"hcmp02", "hcmp_ic03", "hcmp02.outlet", "hcmp_ic03.inlet",
      h2compressVars⟩),
   ("h08", ⟨"hcmp_ic03", "hcmp03", "hcmp_ic03.outlet", "hcmp03.inlet",
      h2compressVars⟩),
   ("h09", ⟨"hcmp03", "hcmp_ic04", "hcmp03.outlet", "hcmp_ic04.inlet",
      h2compressVars⟩),
   ("h10", ⟨"hcmp_ic04", "hcmp04", "hcmp_ic04.outlet", "hcmp04.inlet",
      h2compressVars⟩),
   ("a06", ⟨"oxygen_preheater", "soec_air_HRSG_1",
      "oxygen_preheater.shell_outlet", "soec_air_HRSG_1.inlet", airVars⟩),
   ("a07", ⟨"ng_preheater", "soec_air_HRSG_2", "ng_preheater.shell_outlet",
      "soec_air_HRSG_2.inlet", airVars⟩),
   ("fg02", ⟨"air_preheater_2", "fluegas_HRSG",
      "air_preheater_2.shell_outlet", "fluegas_HRSG.inlet", airVars⟩),
   ("fg03", ⟨"fluegas_HRSG", "CPU_translator", "fluegas_HRSG.outlet",
      "CPU_translator.inlet", airVars⟩),
   ("fg04", ⟨"CPU_translator", "condenser", "CPU_translator.outlet",
      "condenser.inlet", co2h2oVars⟩),
   ("fg05", ⟨"condenser", "flash", "condenser.outlet", "flash.inlet",
      co2h2oVars⟩)]

/-- Look up an arc record by name. -/
def findArc (a : String) : Option ArcDef :=
  (arcTable.find? (fun x => x.1 == a)).map Prod.snd

/-- Owning unit of an arc's source port. -/
def srcUnit (a : String) : String := ((findArc a).map ArcDef.src).getD ""

/-- Owning unit of an arc's destination port. -/
def dstUnit (a : String) : String := ((findArc a).map ArcDef.dst).getD ""

/-! ## The initialization event traces -/

/-- One statement of the hand-written initialization passes. -/
inductive Step where
  /-- `m.fs.<u>.initialize()` — the unit's opaque local-initialize call. -/
  | initU (u : String)
  /-- `iinit.propagate_state(m.fs.<a>)`. -/
  | prop (a : String)
  /-- `port.unfix()`. -/
  | unfixP (p : String)
  /-- `var.unfix()` on a single variable. -/
  | unfixV (k : PKey)
  /-- `constraint.deactivate()` — constraint activity only, no variable
  change. -/
  | deact (c : String)
  /-- `constraint.activate()`. -/
  | act (c : String)
  /-- `copy_port_values(source, destination)`. -/
  | copyPort (srcPort dstPort : String) (vars : List PVar)
  /-- `calculate_variable_from_constraint(var, con)`. -/
  | calcVar (k : PKey) (c : String)
  /-- `iscale.constraint_autoscale_large_jac(m)` — scaling annotations only. -/
  | autoscale
  /-- `solver.solve(m, ...)` — the opaque global simultaneous solve. -/
  | solveG
deriving DecidableEq, Repr

/-- Scaled coefficient of the `CPU.inlet.flow_mol` unknown in constraint
`CPU_inlet_F` (source line 835: `1e-3*fs.CPU.inlet.flow_mol[t] ==
1e-3*fs.flash.vap_outlet.flow_mol[t]`). -/
def CPU_inlet_F_coef : ℚ := 1e-3

/-- Right-hand side of `CPU_inlet_F` as a function of the state. -/
def CPU_inlet_F_rhs (s : VolState) : ℚ :=
  1e-3 * s.val ("flash.vap_outlet", PVar.flow_mol)

/-- Scaled coefficient of the `CPU.inlet.pressure` unknown in constraint
`CPU_inlet_P` (source line 845). -/
def CPU_inlet_P_coef : ℚ := 1e-3

/-- Right-hand side of `CPU_inlet_P` as a function of the state. -/
def CPU_inlet_P_rhs (s : VolState) : ℚ :=
  1e-3 * s.val ("flash.vap_outlet", PVar.pressure)

/-- `calculate_variable_from_constraint(var, con)` for the two linear
constraints the script uses it with: solve `coef * x = rhs(s)` for `x` and
assign the solution to the variable. -/
def calcFromCon (k : PKey) (c : String) (s : VolState) : VolState :=
  if c = "CPU_inlet_F" then setVal k (CPU_inlet_F_rhs s / CPU_inlet_F_coef) s
  else if c = "CPU_inlet_P" then
    setVal k (CPU_inlet_P_rhs s / CPU_inlet_P_coef) s
  else s

/-- Semantics of one trace step.  `f u` is unit `u`'s opaque local-initialize
transformer and `g` the opaque global solver transformer (external
collaborators). -/
def applyStep (f : String → VolState → VolState) (g : VolState → VolState) :
    Step → VolState → VolState
  | Step.initU u, s => f u s
  | Step.prop a, s =>
      match findArc a with
      | some ad => propagateState ad.srcPort ad.dstPort ad.vars s
      | none => s
  | Step.unfixP p, s => unfixPort p s
  | Step.unfixV k, s => unfixVar k s
  | Step.deact _, s => s
  | Step.act _, s => s
  | Step.copyPort sp dp vs, s => propagateState sp dp vs s
  | Step.calcVar k c, s => calcFromCon k c s
  | Step.autoscale, s => s
  | Step.solveG, s => s |> g

/-- Run a trace of steps from a state. -/
def runSteps (f : String → VolState → VolState) (g : VolState → VolState) :
    List Step → VolState → VolState
  | [], s => s
  | st :: r, s => runSteps f g r (applyStep f g st s)

/-- The statement-by-statement trace of `initialize_plant(m, solver)`
(source lines 1371-1486). -/
def initPlantSteps : List Step :=
  [Step.initU "preheat_split", Step.prop "o04", Step.prop "o05",
   Step.initU "air_compressor_s1", Step.prop "STAGE_1_OUT",
   Step.initU "intercooler_s1", Step.prop "IC_1_OUT",
   Step.initU "air_compressor_s2", Step.prop "STAGE_2_OUT",
   Step.initU "intercooler_s2", Step.prop "ba01",
   Step.initU "ASU", Step.prop "ba02",
   Step.initU "oxygen_preheater", Step.prop "cmb_mix_in",
   Step.initU "pre_oxycombustor_translator", Step.prop "ba03",
   Step.initU "ng_preheater", Step.prop "bng01",
   Step.initU "cmb_mix", Step.prop "bng02",
   Step.initU "cmb", Step.prop "cmb_out",
   Step.initU "post_oxycombustor_translator", Step.prop "fg01",
   Step.initU "soec", Step.prop "h01", Step.prop "o01",
   Step.initU "spltf1", Step.prop "h02", Step.prop "hr01",
   Step.initU "splta1", Step.prop "o02",
   Step.initU "aux_boiler_feed_pump", Step.prop "s01",
   Step.initU "bhx1", Step.prop "s02",
   Step.initU "bhx2", Step.prop "s03",
   Step.initU "main_steam_split", Step.prop "s10",
   Step.initU "mxf1", Step.prop "s12",
   Step.initU "air_blower", Step.prop "a01",
   Step.initU "air_preheater_1", Step.prop "a02",
   Step.initU "air_preheater_2", Step.prop "a03", Step.prop "o03",
   Step.initU "mxa1", Step.prop "s13",
   Step.unfixP "preheat_split.inlet",
   Step.unfixV ("bhx2.outlet", PVar.enth_mol),
   Step.unfixV ("air_compressor_s1.inlet", PVar.flow_mol),
   Step.unfixV ("ng_preheater.tube_inlet", PVar.flow_mol),
   Step.unfixV ("soec", PVar.E_cell),
   Step.deact "s12_expanded", Step.deact "s13_expanded",
   Step.act "s12_expanded", Step.act "s13_expanded",
   Step.unfixV ("soec.fc", PVar.pressure),
   Step.unfixV ("soec.fc", PVar.temperature),
   Step.unfixV ("soec.fc", PVar.mole_frac "H2O"),
   Step.unfixV ("soec.ac", PVar.pressure),
   Step.unfixV ("soec.ac", PVar.temperature),
   Step.unfixV ("soec.ac", PVar.mole_frac "H2O"),
   Step.unfixV ("soec.ac", PVar.mole_frac "O2"),
   Step.unfixV ("soec.ac", PVar.mole_frac "N2"),
   Step.unfixV ("soec.ac", PVar.mole_frac "Ar"),
   Step.unfixV ("soec.ac", PVar.mole_frac "CO2"),
   Step.unfixV ("spltf1", PVar.split_fraction "out"),
   Step.unfixV ("aux_boiler_feed_pump.inlet", PVar.flow_mol),
   Step.unfixV ("air_blower.inlet", PVar.flow_mol),
   Step.solveG]

/-- The `copy_port_values` / `calculate_variable_from_constraint` handling of
the flash vapor outlet to CPU inlet connection (source lines 1525-1530),
used in place of `propagate_state` on the commented-out arc `fg06`. -/
def fg06Steps : List Step :=
  [Step.copyPort "flash.vap_outlet" "CPU.inlet" co2h2oVars,
   Step.calcVar ("CPU.inlet", PVar.flow_mol) "CPU_inlet_F",
   Step.calcVar ("CPU.inlet", PVar.pressure) "CPU_inlet_P"]

/-- The statement-by-statement trace of `initialize_bop(m, solver)` (source
lines 1489-1537). -/
def initBopSteps : List Step :=
  [Step.copyPort "bhx1.shell_outlet" "hcmp_ic01.inlet" h2compressVars,
   Step.initU "hcmp_ic01", Step.prop "h04",
   Step.initU "hcmp01", Step.prop "h05",
   Step.initU "hcmp_ic02", Step.prop "h06",
   Step.initU "hcmp02", Step.prop "h07",
   Step.initU "hcmp_ic03", Step.prop "h08",
   Step.initU "hcmp03", Step.prop "h09",
   Step.initU "hcmp_ic04", Step.prop "h10",
   Step.initU "hcmp04",
   Step.prop "a06", Step.initU "soec_air_HRSG_1",
   Step.prop "a07", Step.initU "soec_air_HRSG_2",
   Step.prop "fg02", Step.initU "fluegas_HRSG",
   Step.prop "fg03", Step.initU "CPU_translator",
   Step.prop "fg04", Step.initU "condenser",
   Step.prop "fg05", Step.initU "flash"] ++
  fg06Steps ++
  [Step.initU "CPU", Step.autoscale, Step.solveG]

/-- The whole initialization run: `initialize_plant` followed (after the
topology extension in `get_model`) by `initialize_bop`. -/
def fullTraceSteps : List Step := initPlantSteps ++ initBopSteps

/-- Units in the order their local `initialize()` is invoked by a trace. -/
def visitOrder (tr : List Step) : List String :=
  tr.filterMap fun st => match st with | Step.initU u => some u | _ => none

/-- Arc names in the order `propagate_state` is applied to them by a trace. -/
def propagatedArcs (tr : List Step) : List String :=
  tr.filterMap fun st => match st with | Step.prop a => some a | _ => none

/-- The source unit of arc `a` is locally initialized strictly before the
destination unit in trace `tr` (both are initialized at all). -/
def initBefore (tr : List Step) (a : String) : Prop :=
  srcUnit a ∈ visitOrder tr ∧ dstUnit a ∈ visitOrder tr ∧
    (visitOrder tr).indexOf (srcUnit a) < (visitOrder tr).indexOf (dstUnit a)

instance (tr : List Step) (a : String) : Decidable (initBefore tr a) := by
  unfold initBefore; infer_instance

/-- Arcs whose destination port state is operator-fixed by `set_guess` before
the traversal: the declared tear `o03` into `preheat_split.inlet`, and the
soec inlet arcs `s12`, `s13` whose destination states (temperature, pressure,
composition at z = 0) are likewise fixed guesses. -/
def tearLikeArcs : List String := ["o03", "s12", "s13"]

/-- Index of a statement in the `initialize_plant` trace. -/
def plantIdx (st : Step) : ℕ := initPlantSteps.indexOf st

/-- The statements of `initialize_plant` strictly between the deactivation of
`s13_expanded` and the reactivation of `s12_expanded`. -/
def decoupleWindow : List Step :=
  (initPlantSteps.drop (plantIdx (Step.deact "s13_expanded") + 1)).take
    (plantIdx (Step.act "s12_expanded") - plantIdx (Step.deact "s13_expanded")
      - 1)

/-- Whether a statement is a unit-local initialize call. -/
def isInit (st : Step) : Bool :=
  match st with | Step.initU _ => true | _ => false

/-- The top-level build phases, one per call in `get_model` (source lines
1928-1963). -/
inductive Phase where
  | addFlowsheet | addProperties | addAsu | addPreheater | addSoecAirSideUnits
  | addCombustor | addAuxBoilerSteam | addSoecUnit | addMoreHxConnections
  | addSoecInletMix | addDesignConstraints | expandArcs | setGuess | setInputs
  | getSolver | additionalScaling | scaleArcConstraints | initPlant
  | addH2Compressor | addHrsgAndCpu | additionalScaling2 | initBop
  | checkScaling | addResultConstraints | initResults | tagInputsOptVars
  | tagForPfdAndTables | displayInputTags
deriving DecidableEq, Repr

/-- The call sequence of `get_model`. -/
def getModelPhases : List Phase :=
  [Phase.addFlowsheet, Phase.addProperties, Phase.addAsu, Phase.addPreheater,
   Phase.addSoecAirSideUnits, Phase.addCombustor, Phase.addAuxBoilerSteam,
   Phase.addSoecUnit, Phase.addMoreHxConnections, Phase.addSoecInletMix,
   Phase.addDesignConstraints, Phase.expandArcs, Phase.setGuess,
   Phase.setInputs, Phase.getSolver, Phase.additionalScaling,
   Phase.scaleArcConstraints, Phase.initPlant, Phase.addH2Compressor,
   Phase.addHrsgAndCpu, Phase.expandArcs, Phase.additionalScaling2,
   Phase.initBop, Phase.checkScaling, Phase.addResultConstraints,
   Phase.initResults, Phase.tagInputsOptVars, Phase.tagForPfdAndTables,
   Phase.displayInputTags]

/-- Index of a phase in the `get_model` call sequence. -/
def phaseIdx (p : Phase) : ℕ := getModelPhases.indexOf p

/-! ## C1: is the fixed visit sequence a topological order after removing the
single declared tear arc? -/

/-- C1 counterexample: arc `s12` (mxf1 → soec) is propagated during the run
and is not the declared tear arc `o03`, yet its source unit `mxf1` is locally
initialized only after its destination unit `soec` (``soec.initialize()`` is
line 1400, ``mxf1.initialize()`` line 1419).  The fixed visit sequence is
therefore not a topological order of the graph with only `o03` removed. -/
theorem visit_sequence_not_topo_single_tear :
    "s12" ∈ propagatedArcs fullTraceSteps ∧ "s12" ≠ "o03" ∧
      ¬ initBefore fullTraceSteps "s12" := by decide

/-- C1 (amended): the fixed visit sequence of `initialize_plant` and
`initialize_bop` is a valid topological order of the unit graph after
removing the operator-fixed tear-like arcs `o03`, `s12` and `s13` (the soec
inlet, like `preheat_split.inlet`, carries a fixed guess from `set_guess`):
for every other arc whose state is propagated, the source unit's local
initialize is invoked strictly before the destination unit's. -/
theorem visit_sequence_topo_after_tear_like (a : String)
    (ha : a ∈ propagatedArcs fullTraceSteps) (hno : a ∉ tearLikeArcs) :
    initBefore fullTraceSteps a := by
  revert ha hno
  have : ∀ a ∈ propagatedArcs fullTraceSteps, a ∉ tearLikeArcs →
      initBefore fullTraceSteps a := by decide
  exact fun ha hno => this a ha hno

/-- Witness for `visit_sequence_topo_after_tear_like` at the concrete arc
`STAGE_1_OUT` (air_compressor_s1 → intercooler_s1). -/
theorem visit_sequence_topo_after_tear_like_witness :
    "STAGE_1_OUT" ∈ propagatedArcs fullTraceSteps ∧
      "STAGE_1_OUT" ∉ tearLikeArcs ∧
      initBefore fullTraceSteps "STAGE_1_OUT" :=
  ⟨by decide, by decide,
    visit_sequence_topo_after_tear_like "STAGE_1_OUT" (by decide) (by decide)⟩

/-! ## C4: the staged two-phase strategy -/

/-- C4 counterexample: no global solve occurs between the deactivation of the
soec connection arcs (`s12_expanded`, `s13_expanded`) and their reactivation
in `initialize_plant` — the isolated solve of the decoupled sub-loop is
commented out in the source (lines 1450-1453), so the "solve in isolation"
stage claimed for the two-phase strategy never happens. -/
theorem no_isolated_solve_between_deact_and_act :
    Step.solveG ∉ decoupleWindow := by decide

/-- C4 (amended): after the core loop's unit-by-unit pass (no local
initialize occurs after the deactivation), `initialize_plant` deactivates the
soec connection constraints `s12_expanded` and `s13_expanded`, immediately
reactivates them with no intervening statement (the isolated solve of the
decoupled sub-loop is commented out), and only then performs the single
global solve; afterwards `get_model` extends the topology (hydrogen
compression train, HRSG/CPU train) and repeats initialization over the
extended graph, with `initialize_bop` ending in its own global solve. -/
theorem staged_two_phase_strategy :
    (∀ st ∈ initPlantSteps.drop (plantIdx (Step.deact "s12_expanded")),
      isInit st = false) ∧
    plantIdx (Step.deact "s12_expanded") <
      plantIdx (Step.deact "s13_expanded") ∧
    plantIdx (Step.deact "s13_expanded") < plantIdx (Step.act "s12_expanded") ∧
    plantIdx (Step.act "s12_expanded") < plantIdx (Step.act "s13_expanded") ∧
    decoupleWindow = [] ∧
    plantIdx (Step.act "s13_expanded") < plantIdx Step.solveG ∧
    Step.solveG ∈ initPlantSteps ∧
    phaseIdx Phase.initPlant < phaseIdx Phase.addH2Compressor ∧
    phaseIdx Phase.addH2Compressor < phaseIdx Phase.addHrsgAndCpu ∧
    phaseIdx Phase.addHrsgAndCpu < phaseIdx Phase.initBop ∧
    initBopSteps.getLast? = some Step.solveG := by decide

/-! ## C5: supplied composition vectors -/

/-- C5 counterexample: the natural-gas feed composition fixed by `set_inputs`
sums to 1.00003, so its deviation from 1 exceeds the claimed tolerance
1e-6. -/
theorem ng_comp_sum_exceeds_tolerance :
    ¬ (|compSum ng_comp - 1| ≤ (1e-6 : ℚ)) := by
  rw [abs_le]
  push_neg
  intro h
  norm_num [compSum, ng_comp]

/-- C5 (amended): every composition vector supplied to the initialization
pass by `set_guess` and `set_inputs` (tear guesses and feed compositions)
sums to 1 within 3e-5 — the natural-gas feed sums to 1.00003 — and contains
no negative fraction. -/
theorem supplied_comp_sums_within_3e5 (c : List (String × ℚ))
    (hc : c ∈ suppliedComps) :
    |compSum c - 1| ≤ (3e-5 : ℚ) ∧ ∀ kv ∈ c, 0 ≤ kv.2 := by
  simp only [suppliedComps, List.mem_cons, List.not_mem_nil, or_false] at hc
  rcases hc with rfl | rfl | rfl | rfl | rfl | rfl <;>
    exact ⟨by
        rw [abs_le]
        constructor <;>
          norm_num [compSum, comp_guess, soec_fc_guess, soec_ac_guess,
            air_comp, ng_comp, mxa1_recycle_comp],
      by
        norm_num [comp_guess, soec_fc_guess, soec_ac_guess, air_comp,
          ng_comp, mxa1_recycle_comp, List.forall_mem_cons]⟩

/-- Witness for `supplied_comp_sums_within_3e5` at the tear-guess
composition. -/
theorem supplied_comp_sums_within_3e5_witness :
    comp_guess ∈ suppliedComps ∧
      (|compSum comp_guess - 1| ≤ (3e-5 : ℚ) ∧ ∀ kv ∈ comp_guess, 0 ≤ kv.2) :=
  ⟨by simp [suppliedComps],
    supplied_comp_sums_within_3e5 comp_guess (by simp [suppliedComps])⟩

/-! ## Structural lemmas about `propagateState` -/

lemma copyVar_fixd (a b : PKey) (s : VolState) :
    (copyVar a b s).fixd = s.fixd := by
  unfold copyVar setVal
  split <;> rfl

lemma copyVar_val_ne (a b k : PKey) (s : VolState) (h : k ≠ b) :
    (copyVar a b s).val k = s.val k := by
  unfold copyVar setVal
  split
  · rfl
  · exact Function.update_noteq h _ _

lemma copyVar_val_fixed (a b k : PKey) (s : VolState)
    (hfix : s.fixd k = true) : (copyVar a b s).val k = s.val k := by
  unfold copyVar setVal
  split
  · rfl
  · next hb =>
      refine Function.update_noteq (fun hkb => ?_) _ _
      rw [hkb] at hfix
      exact hb hfix

lemma copyVar_val_copy (a b : PKey) (s : VolState)
    (hfree : s.fixd b = false) : (copyVar a b s).val b = s.val a := by
  unfold copyVar setVal
  rw [if_neg (by simp [hfree])]
  exact Function.update_same _ _ _

lemma propagateState_cons (sp dp : String) (v : PVar) (rest : List PVar)
    (s : VolState) :
    propagateState sp dp (v :: rest) s =
      propagateState sp dp rest (copyVar (sp, v) (dp, v) s) := rfl

lemma propagateState_fixd (sp dp : String) :
    ∀ (vs : List PVar) (s : VolState),
      (propagateState sp dp vs s).fixd = s.fixd
  | [], _ => rfl
  | v :: rest, s => by
      rw [propagateState_cons, propagateState_fixd sp dp rest, copyVar_fixd]

lemma propagateState_val_ne_port (sp dp : String) :
    ∀ (vs : List PVar) (s : VolState) (k : PKey), k.1 ≠ dp →
      (propagateState sp dp vs s).val k = s.val k
  | [], _, _, _ => rfl
  | v :: rest, s, k, hk => by
      rw [propagateState_cons, propagateState_val_ne_port sp dp rest _ k hk,
        copyVar_val_ne _ _ _ _ (fun he => hk (by rw [he]))]

lemma propagateState_val_fixed (sp dp : String) :
    ∀ (vs : List PVar) (s : VolState) (k : PKey), s.fixd k = true →
      (propagateState sp dp vs s).val k = s.val k
  | [], _, _, _ => rfl
  | v :: rest, s, k, hfix => by
      rw [propagateState_cons,
        propagateState_val_fixed sp dp rest _ k (by rw [copyVar_fixd]; exact hfix),
        copyVar_val_fixed _ _ _ _ hfix]

lemma propagateState_untouched_var (sp dp : String) :
    ∀ (vs : List PVar) (s : VolState) (v : PVar), (∀ x ∈ vs, x ≠ v) →
      (propagateState sp dp vs s).val (dp, v) = s.val (dp, v)
  | [], _, _, _ => rfl
  | x :: rest, s, v, hv => by
      rw [propagateState_cons,
        propagateState_untouched_var sp dp rest _ v
          (fun y hy => hv y (List.mem_cons_of_mem _ hy))]
      refine copyVar_val_ne _ _ _ _ (fun he => ?_)
      exact hv x (List.mem_cons_self _ _)
        ((Prod.mk.injEq _ _ _ _).mp he).2.symm

lemma propagateState_copies (sp dp : String) (hports : sp ≠ dp) :
    ∀ (vs : List PVar) (s : VolState),
      (∀ v ∈ vs, s.fixd (dp, v) = false) →
      ∀ v ∈ vs, (propagateState sp dp vs s).val (dp, v) = s.val (sp, v)
  | [], _, _, _, hv => absurd hv (List.not_mem_nil _)
  | x :: rest, s, hfree, v, hv => by
      have hsrc : ∀ w : PVar,
          (copyVar (sp, x) (dp, x) s).val (sp, w) = s.val (sp, w) :=
        fun w => copyVar_val_ne _ _ _ _
          (fun he => hports (congrArg Prod.fst he))
      have hfree1 : ∀ w ∈ rest,
          (copyVar (sp, x) (dp, x) s).fixd (dp, w) = false := by
        rw [copyVar_fixd]
        exact fun w hw => hfree w (List.mem_cons_of_mem _ hw)
      rw [propagateState_cons]
      rcases List.mem_cons.mp hv with rfl | hvrest
      · by_cases hvin : v ∈ rest
        · rw [propagateState_copies sp dp hports rest _ hfree1 v hvin, hsrc]
        · rw [propagateState_untouched_var sp dp rest _ v
            (fun y hy hyv => hvin (hyv ▸ hy)),
            copyVar_val_copy _ _ _ (hfree v (List.mem_cons_self _ _))]
      · rw [propagateState_copies sp dp hports rest _ hfree1 v hvrest, hsrc]

lemma propagateState_fixpoint (sp dp : String) :
    ∀ (vs : List PVar) (t : VolState),
      (∀ v ∈ vs, t.val (dp, v) = t.val (sp, v)) →
      propagateState sp dp vs t = t
  | [], _, _ => rfl
  | x :: rest, t, hcopied => by
      have hcv : copyVar (sp, x) (dp, x) t = t := by
        unfold copyVar setVal
        split
        · rfl
        · rw [← hcopied x (List.mem_cons_self _ _), Function.update_eq_self]
      rw [propagateState_cons, hcv]
      exact propagateState_fixpoint sp dp rest t
        (fun v hv => hcopied v (List.mem_cons_of_mem _ hv))

/-! ## C3: propagation along a regular arc is an exact, idempotent state
copy -/

/-- C3: propagating state along a regular arc (distinct source and
destination ports, destination variables not operator-fixed — the situation
after the source unit's local initialize has populated the source port)
reproduces the source port state exactly at the destination port, and a
second propagation of the same arc leaves the state completely unchanged. -/
theorem propagate_exact_copy_and_idempotent (sp dp : String) (vs : List PVar)
    (s : VolState) (hports : sp ≠ dp)
    (hfree : ∀ v ∈ vs, s.fixd (dp, v) = false) :
    (∀ v ∈ vs, (propagateState sp dp vs s).val (dp, v) = s.val (sp, v)) ∧
      propagateState sp dp vs (propagateState sp dp vs s) =
        propagateState sp dp vs s := by
  refine ⟨propagateState_copies sp dp hports vs s hfree, ?_⟩
  apply propagateState_fixpoint
  intro v hv
  rw [propagateState_copies sp dp hports vs s hfree v hv,
    propagateState_val_ne_port sp dp vs s (sp, v)
      (fun h => hports h)]

/-- The all-zero, all-free network state, used as a concrete test state. -/
def blankState : VolState := ⟨fun _ => 0, fun _ => false⟩

/-- Witness for `propagate_exact_copy_and_idempotent` at the concrete arc
`s03` (bhx2.outlet → main_steam_split.inlet, iapws95 water variables) from
the all-free state. -/
theorem propagate_exact_copy_and_idempotent_witness :
    ("bhx2.outlet" ≠ "main_steam_split.inlet") ∧
      (∀ v ∈ waterVars, blankState.fixd ("main_steam_split.inlet", v) = false) ∧
      ((∀ v ∈ waterVars,
          (propagateState "bhx2.outlet" "main_steam_split.inlet" waterVars
            blankState).val ("main_steam_split.inlet", v) =
            blankState.val ("bhx2.outlet", v)) ∧
        propagateState "bhx2.outlet" "main_steam_split.inlet" waterVars
            (propagateState "bhx2.outlet" "main_steam_split.inlet" waterVars
              blankState) =
          propagateState "bhx2.outlet" "main_steam_split.inlet" waterVars
            blankState) :=
  ⟨by decide, fun v _ => rfl,
    propagate_exact_copy_and_idempotent _ _ _ _ (by decide) (fun v _ => rfl)⟩

/-! ## C2: the tear guess is fixed before traversal and kept throughout the
pass -/

/-- Frame condition on the opaque external collaborators (unit-local
initialize routines and the global solver): an operator-fixed variable keeps
its value and stays fixed. -/
def FixedPreserving (g : VolState → VolState) : Prop :=
  ∀ s k, s.fixd k = true → (g s).val k = s.val k ∧ (g s).fixd k = true

/-- A statement that does not explicitly unfix or overwrite a
`preheat_split.inlet` variable.  In `initialize_plant` every statement before
`m.fs.preheat_split.inlet.unfix()` (line 1433) satisfies this. -/
def preheatSafe (st : Step) : Bool :=
  match st with
  | Step.unfixP p => p != "preheat_split.inlet"
  | Step.unfixV k => k.1 != "preheat_split.inlet"
  | Step.calcVar k _ => k.1 != "preheat_split.inlet"
  | _ => true

lemma applyStep_keeps_fixed (f : String → VolState → VolState)
    (g : VolState → VolState) (hf : ∀ u, FixedPreserving (f u))
    (hg : FixedPreserving g) (st : Step) (hs : preheatSafe st = true)
    (s : VolState) (k : PKey) (hk : k.1 = "preheat_split.inlet")
    (hfix : s.fixd k = true) :
    (applyStep f g st s).val k = s.val k ∧
      (applyStep f g st s).fixd k = true := by
  cases st with
  | initU u => exact hf u s k hfix
  | prop a =>
      have hred : applyStep f g (Step.prop a) s =
          (match findArc a with
           | some ad => propagateState ad.srcPort ad.dstPort ad.vars s
           | none => s) := rfl
      rw [hred]
      cases findArc a with
      | none => exact ⟨rfl, hfix⟩
      | some ad =>
          refine ⟨propagateState_val_fixed _ _ _ _ _ hfix, ?_⟩
          rw [propagateState_fixd]
          exact hfix
  | unfixP p =>
      have hp : ¬ (k.1 = p) := by
        simp only [preheatSafe, bne_iff_ne, ne_eq] at hs
        rw [hk]
        exact fun he => hs he.symm
      refine ⟨rfl, ?_⟩
      show (if k.1 = p then false else s.fixd k) = true
      rw [if_neg hp]
      exact hfix
  | unfixV k' =>
      have hne : k ≠ k' := by
        simp only [preheatSafe, bne_iff_ne, ne_eq] at hs
        intro he
        apply hs
        rw [← he, hk]
      refine ⟨rfl, ?_⟩
      show Function.update s.fixd k' false k = true
      rw [Function.update_noteq hne]
      exact hfix
  | deact c => exact ⟨rfl, hfix⟩
  | act c => exact ⟨rfl, hfix⟩
  | copyPort sp dp vsx =>
      refine ⟨propagateState_val_fixed _ _ _ _ _ hfix, ?_⟩
      show (propagateState sp dp vsx s).fixd k = true
      rw [propagateState_fixd]
      exact hfix
  | calcVar k' c =>
      have hne : k ≠ k' := by
        simp only [preheatSafe, bne_iff_ne, ne_eq] at hs
        intro he
        apply hs
        rw [← he, hk]
      show (calcFromCon k' c s).val k = s.val k ∧
        (calcFromCon k' c s).fixd k = true
      unfold calcFromCon setVal
      split_ifs
      · exact ⟨Function.update_noteq hne _ _, hfix⟩
      · exact ⟨Function.update_noteq hne _ _, hfix⟩
      · exact ⟨rfl, hfix⟩
  | autoscale => exact ⟨rfl, hfix⟩
  | solveG => exact hg s k hfix

lemma runSteps_keeps_fixed (f : String → VolState → VolState)
    (g : VolState → VolState) (hf : ∀ u, FixedPreserving (f u))
    (hg : FixedPreserving g) :
    ∀ (tr : List Step), (∀ st ∈ tr, preheatSafe st = true) →
      ∀ (s : VolState) (k : PKey), k.1 = "preheat_split.inlet" →
        s.fixd k = true →
        (runSteps f g tr s).val k = s.val k ∧
          (runSteps f g tr s).fixd k = true
  | [], _, _, _, _, hfix => ⟨rfl, hfix⟩
  | st :: r, hsafe, s, k, hk, hfix => by
      have h1 := applyStep_keeps_fixed f g hf hg st
        (hsafe st (List.mem_cons_self _ _)) s k hk hfix
      have h2 := runSteps_keeps_fixed f g hf hg r
        (fun x hx => hsafe x (List.mem_cons_of_mem _ hx))
        (applyStep f g st s) k hk h1.2
      exact ⟨h2.1.trans h1.1, h2.2⟩

/-- The operator-supplied tear guess installed by `set_guess` on the tear
destination `preheat_split.inlet`: flow 6000, temperature 700, pressure
1.04e5 and the full air composition. -/
def preheatGuessList : List (PKey × ℚ) :=
  [(("preheat_split.inlet", PVar.flow_mol), 6000),
   (("preheat_split.inlet", PVar.temperature), 700),
   (("preheat_split.inlet", PVar.pressure), 1.04e5),
   (("preheat_split.inlet", PVar.mole_frac "O2"), 0.2074),
   (("preheat_split.inlet", PVar.mole_frac "H2O"), 0.0099),
   (("preheat_split.inlet", PVar.mole_frac "CO2"), 0.0003),
   (("preheat_split.inlet", PVar.mole_frac "N2"), 0.7732),
   (("preheat_split.inlet", PVar.mole_frac "Ar"), 0.0092)]

lemma set_guess_installs (s : VolState) :
    ∀ pr ∈ preheatGuessList,
      (set_guess s).val pr.1 = pr.2 ∧ (set_guess s).fixd pr.1 = true := by
  intro pr hpr
  fin_cases hpr <;>
    constructor <;>
      simp [set_guess, set_port, comp_guess, fixVar, setVal,
        Function.update_apply]

/-- C2: registering the tear guess (`set_guess`) fixes the tear arc's
downstream port state — flow, temperature, pressure and the full composition
of `preheat_split.inlet` — to the operator-supplied guess, and throughout any
prefix of the `initialize_plant` pass that precedes the explicit
`preheat_split.inlet.unfix()` the destination keeps exactly those fixed guess
values: unit-local initialize calls and the solver preserve fixed variables
(frame hypothesis), and `propagate_state` — including the call on the tear
arc `o03` itself — never overwrites a fixed destination variable, so state is
effectively copied only along regular arcs. -/
theorem tear_guess_fixed_throughout (f : String → VolState → VolState)
    (g : VolState → VolState) (hf : ∀ u, FixedPreserving (f u))
    (hg : FixedPreserving g) (s : VolState) (n : ℕ)
    (hsafe : ∀ st ∈ initPlantSteps.take n, preheatSafe st = true) :
    ∀ pr ∈ preheatGuessList,
      (runSteps f g (initPlantSteps.take n) (set_guess s)).val pr.1 = pr.2 ∧
        (runSteps f g (initPlantSteps.take n) (set_guess s)).fixd pr.1 =
          true := by
  intro pr hpr
  have hinst := set_guess_installs s pr hpr
  have hk1 : pr.1.1 = "preheat_split.inlet" := by fin_cases hpr <;> rfl
  have hrun := runSteps_keeps_fixed f g hf hg (initPlantSteps.take n) hsafe
    (set_guess s) pr.1 hk1 hinst.2
  exact ⟨hrun.1.trans hinst.1, hrun.2⟩

/-- The identity unit-initialize family, a trivially `FixedPreserving`
concrete collaborator used by witnesses. -/
def idInit : String → VolState → VolState := fun _ t => t

/-- Witness for `tear_guess_fixed_throughout`: identity collaborators, the
all-free initial state, and the 52-step prefix of `initialize_plant` that
ends just before `preheat_split.inlet.unfix()` (it contains every
`propagate_state` call of the pass, including the one on the tear arc
`o03`). -/
theorem tear_guess_fixed_throughout_witness :
    (∀ u, FixedPreserving (idInit u)) ∧
      FixedPreserving id ∧
      (∀ st ∈ initPlantSteps.take 52, preheatSafe st = true) ∧
      (∀ pr ∈ preheatGuessList,
        (runSteps idInit id (initPlantSteps.take 52)
          (set_guess blankState)).val pr.1 = pr.2 ∧
          (runSteps idInit id (initPlantSteps.take 52)
            (set_guess blankState)).fixd pr.1 = true) :=
  ⟨fun _ _ _ h => ⟨rfl, h⟩, fun _ _ h => ⟨rfl, h⟩, by decide,
    tear_guess_fixed_throughout idInit id (fun _ _ _ h => ⟨rfl, h⟩)
      (fun _ _ h => ⟨rfl, h⟩) blankState 52 (by decide)⟩

/-! ## C6: a failing unit-local initialize halts the run -/

/-- Run a trace under a failure oracle `fail` for the unit-local initialize
calls (a Python exception propagates out of the plain statement sequence, so
the run aborts at the first failing call).  Returns the sequence of units
whose `initialize()` was actually invoked, and `some u` when unit `u`'s local
step failed (`none` when the whole trace ran). -/
def runWithFailures (fail : String → Bool) : List Step → List String × Option String
  | [] => ([], none)
  | Step.initU u :: r =>
      if fail u then ([u], some u)
      else
        let res := runWithFailures fail r
        (u :: res.1, res.2)
  | _ :: r => runWithFailures fail r

lemma visitOrder_nil_of_append {before after : List String} {u : String}
    (h : ([] : List String) = before ++ u :: after) : False := by
  cases before <;> simp at h

/-- C6: if unit `u`'s local-initialize step fails while every unit visited
before it succeeds, the run halts at `u`: the invoked initialize calls are
exactly the prefix of the visit order through `u` (each exactly once — no
automatic retry), no later unit is visited, and the error is surfaced as the
run's result. -/
theorem local_failure_halts_run (fail : String → Bool) :
    ∀ (tr : List Step) (before after : List String) (u : String),
      visitOrder tr = before ++ u :: after → fail u = true →
      (∀ w ∈ before, fail w = false) → u ∉ before →
      runWithFailures fail tr = (before ++ [u], some u) ∧
        (before ++ [u]).count u = 1
  | [], before, after, u, hvo, _, _, _ =>
      absurd hvo (fun h => visitOrder_nil_of_append h)
  | Step.initU w :: r, before, after, u, hvo, hu, hb, hnb => by
      have hvo' : w :: visitOrder r = before ++ u :: after := hvo
      refine ⟨?_, ?_⟩
      · cases before with
        | nil =>
            simp only [List.nil_append] at hvo'
            injection hvo' with h1 h2
            subst h1
            simp [runWithFailures, hu]
        | cons b bs =>
            simp only [List.cons_append] at hvo'
            injection hvo' with h1 h2
            subst h1
            have hfw : fail w = false := hb w (List.mem_cons_self _ _)
            have ih := local_failure_halts_run fail r bs after u h2 hu
              (fun x hx => hb x (List.mem_cons_of_mem _ hx))
              (fun hx => hnb (List.mem_cons_of_mem _ hx))
            simp [runWithFailures, hfw, ih.1]
      · rw [List.count_append, List.count_eq_zero.mpr hnb]
        simp
  | Step.prop a :: r, before, after, u, hvo, hu, hb, hnb =>
      local_failure_halts_run fail r before after u hvo hu hb hnb
  | Step.unfixP p :: r, before, after, u, hvo, hu, hb, hnb =>
      local_failure_halts_run fail r before after u hvo hu hb hnb
  | Step.unfixV k :: r, before, after, u, hvo, hu, hb, hnb =>
      local_failure_halts_run fail r before after u hvo hu hb hnb
  | Step.deact c :: r, before, after, u, hvo, hu, hb, hnb =>
      local_failure_halts_run fail r before after u hvo hu hb hnb
  | Step.act c :: r, before, after, u, hvo, hu, hb, hnb =>
      local_failure_halts_run fail r before after u hvo hu hb hnb
  | Step.copyPort sp dp vs :: r, before, after, u, hvo, hu, hb, hnb =>
      local_failure_halts_run fail r before after u hvo hu hb hnb
  | Step.calcVar k c :: r, before, after, u, hvo, hu, hb, hnb =>
      local_failure_halts_run fail r before after u hvo hu hb hnb
  | Step.autoscale :: r, before, after, u, hvo, hu, hb, hnb =>
      local_failure_halts_run fail r before after u hvo hu hb hnb
  | Step.solveG :: r, before, after, u, hvo, hu, hb, hnb =>
      local_failure_halts_run fail r before after u hvo hu hb hnb

/-- Units locally initialized before `cmb` in `initialize_plant`. -/
def plantUnitsBeforeCmb : List String :=
  ["preheat_split", "air_compressor_s1", "intercooler_s1",
   "air_compressor_s2", "intercooler_s2", "ASU", "oxygen_preheater",
   "pre_oxycombustor_translator", "ng_preheater", "cmb_mix"]

/-- Units locally initialized after `cmb` in `initialize_plant`. -/
def plantUnitsAfterCmb : List String :=
  ["post_oxycombustor_translator", "soec", "spltf1", "splta1",
   "aux_boiler_feed_pump", "bhx1", "bhx2", "main_steam_split", "mxf1",
   "air_blower", "air_preheater_1", "air_preheater_2", "mxa1"]

/-- Witness for `local_failure_halts_run`: the combustor's local initialize
fails during `initialize_plant`; the run stops there with the error
surfaced. -/
theorem local_failure_halts_run_witness :
    visitOrder initPlantSteps =
        plantUnitsBeforeCmb ++ "cmb" :: plantUnitsAfterCmb ∧
      runWithFailures (fun w => w == "cmb") initPlantSteps =
        (plantUnitsBeforeCmb ++ ["cmb"], some "cmb") :=
  ⟨by decide,
    (local_failure_halts_run (fun w => w == "cmb") initPlantSteps
      plantUnitsBeforeCmb plantUnitsAfterCmb "cmb" (by decide) (by decide)
      (by decide) (by decide)).1⟩

/-! ## C9: the flash → CPU connection -/

lemma setVal_val_same (k : PKey) (x : ℚ) (s : VolState) :
    (setVal k x s).val k = x := Function.update_same _ _ _

lemma setVal_val_ne (k : PKey) (x : ℚ) (s : VolState) (k' : PKey)
    (h : k' ≠ k) : (setVal k x s).val k' = s.val k' :=
  Function.update_noteq h _ _

/-- C9 (amended): the `initialize_bop` handling of the flash vapor outlet to
CPU inlet connection — `copy_port_values` followed by
`calculate_variable_from_constraint` on `CPU_inlet_F` and `CPU_inlet_P` —
leaves the CPU inlet flow and pressure *equal* to the upstream
`flash.vap_outlet` values: the two constraints equate the scaled (1e-3)
destination quantity with the same multiple of the upstream quantity, so
solving them reproduces the upstream value exactly and the net effect agrees
with a pure state copy. -/
theorem cpu_inlet_recompute_equals_upstream (f : String → VolState → VolState)
    (g : VolState → VolState) (s : VolState) :
    (runSteps f g fg06Steps s).val ("CPU.inlet", PVar.flow_mol) =
        s.val ("flash.vap_outlet", PVar.flow_mol) ∧
      (runSteps f g fg06Steps s).val ("CPU.inlet", PVar.pressure) =
        s.val ("flash.vap_outlet", PVar.pressure) := by
  have hrun : runSteps f g fg06Steps s =
      calcFromCon ("CPU.inlet", PVar.pressure) "CPU_inlet_P"
        (calcFromCon ("CPU.inlet", PVar.flow_mol) "CPU_inlet_F"
          (propagateState "flash.vap_outlet" "CPU.inlet" co2h2oVars s)) := rfl
  have hF : ∀ t : VolState,
      calcFromCon ("CPU.inlet", PVar.flow_mol) "CPU_inlet_F" t =
        setVal ("CPU.inlet", PVar.flow_mol)
          (CPU_inlet_F_rhs t / CPU_inlet_F_coef) t :=
    fun t => if_pos rfl
  have hP : ∀ t : VolState,
      calcFromCon ("CPU.inlet", PVar.pressure) "CPU_inlet_P" t =
        setVal ("CPU.inlet", PVar.pressure)
          (CPU_inlet_P_rhs t / CPU_inlet_P_coef) t := by
    intro t
    unfold calcFromCon
    rw [if_neg (by decide), if_pos rfl]
  have h1F : (propagateState "flash.vap_outlet" "CPU.inlet" co2h2oVars s).val
      ("flash.vap_outlet", PVar.flow_mol) =
        s.val ("flash.vap_outlet", PVar.flow_mol) :=
    propagateState_val_ne_port _ _ _ _ _ (by decide)
  have h1P : (propagateState "flash.vap_outlet" "CPU.inlet" co2h2oVars s).val
      ("flash.vap_outlet", PVar.pressure) =
        s.val ("flash.vap_outlet", PVar.pressure) :=
    propagateState_val_ne_port _ _ _ _ _ (by decide)
  rw [hrun, hF, hP]
  constructor
  · rw [setVal_val_ne _ _ _ _ (by decide), setVal_val_same]
    unfold CPU_inlet_F_rhs CPU_inlet_F_coef
    rw [h1F, mul_div_cancel_left₀ _ (by norm_num : (1e-3 : ℚ) ≠ 0)]
  · rw [setVal_val_same]
    unfold CPU_inlet_P_rhs CPU_inlet_P_coef
    rw [setVal_val_ne _ _ _ _ (by decide), h1P,
      mul_div_cancel_left₀ _ (by norm_num : (1e-3 : ℚ) ≠ 0)]

/-- A concrete pre-connection state: flash vapor outlet carries flow 1000 and
pressure 101325, every variable free. -/
def cpuDemoState : VolState :=
  { val := fun k =>
      if k = ("flash.vap_outlet", PVar.flow_mol) then 1000
      else if k = ("flash.vap_outlet", PVar.pressure) then 101325 else 0,
    fixd := fun _ => false }

/-! ## C10: the `_set_port` frame conditions -/

lemma fixVar_val_same (k : PKey) (x : ℚ) (s : VolState) :
    (fixVar k x s).val k = x := Function.update_same _ _ _

lemma fixVar_val_ne (k : PKey) (x : ℚ) (s : VolState) (k' : PKey)
    (h : k' ≠ k) : (fixVar k x s).val k' = s.val k' :=
  Function.update_noteq h _ _

lemma fixVar_fixd_same (k : PKey) (x : ℚ) (s : VolState) :
    (fixVar k x s).fixd k = true := Function.update_same _ _ _

lemma fixVar_fixd_ne (k : PKey) (x : ℚ) (s : VolState) (k' : PKey)
    (h : k' ≠ k) : (fixVar k x s).fixd k' = s.fixd k' :=
  Function.update_noteq h _ _

lemma setVal_fixd (k : PKey) (x : ℚ) (s : VolState) :
    (setVal k x s).fixd = s.fixd := rfl

lemma pkey_ne_of_var_ne {port : String} {v w : PVar} (h : v ≠ w) :
    ((port, v) : PKey) ≠ (port, w) :=
  fun he => h ((Prod.mk.injEq _ _ _ _).mp he).2

lemma fixFold_val_notkey (port : String) :
    ∀ (comp : List (String × ℚ)) (s : VolState) (k : PKey),
      (∀ kv ∈ comp, k ≠ (port, PVar.mole_frac kv.1)) →
      (comp.foldl (fun t kv => fixVar (port, PVar.mole_frac kv.1) kv.2 t)
        s).val k = s.val k
  | [], _, _, _ => rfl
  | kv :: rest, s, k, hk => by
      rw [List.foldl_cons,
        fixFold_val_notkey port rest _ k
          (fun kv' h' => hk kv' (List.mem_cons_of_mem _ h'))]
      exact fixVar_val_ne _ _ _ _ (hk kv (List.mem_cons_self _ _))

lemma fixFold_fixd_notkey (port : String) :
    ∀ (comp : List (String × ℚ)) (s : VolState) (k : PKey),
      (∀ kv ∈ comp, k ≠ (port, PVar.mole_frac kv.1)) →
      (comp.foldl (fun t kv => fixVar (port, PVar.mole_frac kv.1) kv.2 t)
        s).fixd k = s.fixd k
  | [], _, _, _ => rfl
  | kv :: rest, s, k, hk => by
      rw [List.foldl_cons,
        fixFold_fixd_notkey port rest _ k
          (fun kv' h' => hk kv' (List.mem_cons_of_mem _ h'))]
      exact fixVar_fixd_ne _ _ _ _ (hk kv (List.mem_cons_self _ _))

lemma fixFold_val_key (port : String) :
    ∀ (comp : List (String × ℚ)) (s : VolState) (kv : String × ℚ),
      kv ∈ comp → (comp.map Prod.fst).Nodup →
      (comp.foldl (fun t kv => fixVar (port, PVar.mole_frac kv.1) kv.2 t)
        s).val (port, PVar.mole_frac kv.1) = kv.2
  | [], _, _, hmem, _ => absurd hmem (List.not_mem_nil _)
  | kv0 :: rest, s, kv, hmem, hnd => by
      have hnd' : kv0.1 ∉ rest.map Prod.fst ∧ (rest.map Prod.fst).Nodup := by
        simpa using hnd
      rw [List.foldl_cons]
      rcases List.mem_cons.mp hmem with heq | hrest
      · subst heq
        have hne : ∀ kv' ∈ rest,
            ((port, PVar.mole_frac kv.1) : PKey) ≠
              (port, PVar.mole_frac kv'.1) := by
          intro kv' h' heq'
          have hj : kv.1 = kv'.1 :=
            PVar.mole_frac.inj ((Prod.mk.injEq _ _ _ _).mp heq').2
          exact hnd'.1 (by rw [hj]; exact List.mem_map_of_mem Prod.fst h')
        rw [fixFold_val_notkey port rest _ _ hne, fixVar_val_same]
      · exact fixFold_val_key port rest _ kv hrest hnd'.2

lemma fixFold_fixd_key (port : String) :
    ∀ (comp : List (String × ℚ)) (s : VolState) (kv : String × ℚ),
      kv ∈ comp → (comp.map Prod.fst).Nodup →
      (comp.foldl (fun t kv => fixVar (port, PVar.mole_frac kv.1) kv.2 t)
        s).fixd (port, PVar.mole_frac kv.1) = true
  | [], _, _, hmem, _ => absurd hmem (List.not_mem_nil _)
  | kv0 :: rest, s, kv, hmem, hnd => by
      have hnd' : kv0.1 ∉ rest.map Prod.fst ∧ (rest.map Prod.fst).Nodup := by
        simpa using hnd
      rw [List.foldl_cons]
      rcases List.mem_cons.mp hmem with heq | hrest
      · subst heq
        have hne : ∀ kv' ∈ rest,
            ((port, PVar.mole_frac kv.1) : PKey) ≠
              (port, PVar.mole_frac kv'.1) := by
          intro kv' h' heq'
          have hj : kv.1 = kv'.1 :=
            PVar.mole_frac.inj ((Prod.mk.injEq _ _ _ _).mp heq').2
          exact hnd'.1 (by rw [hj]; exact List.mem_map_of_mem Prod.fst h')
        rw [fixFold_fixd_notkey port rest _ _ hne, fixVar_fixd_same]
      · exact fixFold_fixd_key port rest _ kv hrest hnd'.2

lemma setFold_val_notkey (port : String) :
    ∀ (comp : List (String × ℚ)) (s : VolState) (k : PKey),
      (∀ kv ∈ comp, k ≠ (port, PVar.mole_frac kv.1)) →
      (comp.foldl (fun t kv => setVal (port, PVar.mole_frac kv.1) kv.2 t)
        s).val k = s.val k
  | [], _, _, _ => rfl
  | kv :: rest, s, k, hk => by
      rw [List.foldl_cons,
        setFold_val_notkey port rest _ k
          (fun kv' h' => hk kv' (List.mem_cons_of_mem _ h'))]
      exact setVal_val_ne _ _ _ _ (hk kv (List.mem_cons_self _ _))

lemma setFold_val_key (port : String) :
    ∀ (comp : List (String × ℚ)) (s : VolState) (kv : String × ℚ),
      kv ∈ comp → (comp.map Prod.fst).Nodup →
      (comp.foldl (fun t kv => setVal (port, PVar.mole_frac kv.1) kv.2 t)
        s).val (port, PVar.mole_frac kv.1) = kv.2
  | [], _, _, hmem, _ => absurd hmem (List.not_mem_nil _)
  | kv0 :: rest, s, kv, hmem, hnd => by
      have hnd' : kv0.1 ∉ rest.map Prod.fst ∧ (rest.map Prod.fst).Nodup := by
        simpa using hnd
      rw [List.foldl_cons]
      rcases List.mem_cons.mp hmem with heq | hrest
      · subst heq
        have hne : ∀ kv' ∈ rest,
            ((port, PVar.mole_frac kv.1) : PKey) ≠
              (port, PVar.mole_frac kv'.1) := by
          intro kv' h' heq'
          have hj : kv.1 = kv'.1 :=
            PVar.mole_frac.inj ((Prod.mk.injEq _ _ _ _).mp heq').2
          exact hnd'.1 (by rw [hj]; exact List.mem_map_of_mem Prod.fst h')
        rw [setFold_val_notkey port rest _ _ hne, setVal_val_same]
      · exact setFold_val_key port rest _ kv hrest hnd'.2

lemma setFold_fixd (port : String) :
    ∀ (comp : List (String × ℚ)) (s : VolState),
      (comp.foldl (fun t kv => setVal (port, PVar.mole_frac kv.1) kv.2 t)
        s).fixd = s.fixd
  | [], _ => rfl
  | kv :: rest, s => by
      rw [List.foldl_cons, setFold_fixd port rest, setVal_fixd]

lemma set_port_false_eq (port : String) (F T P : ℚ)
    (comp : List (String × ℚ)) (s : VolState) :
    set_port port F T P comp false s =
      comp.foldl (fun t kv => setVal (port, PVar.mole_frac kv.1) kv.2 t)
        (setVal (port, PVar.pressure) P
          (setVal (port, PVar.temperature) T
            (setVal (port, PVar.flow_mol) F s))) := rfl

lemma set_port_true_eq (port : String) (F T P : ℚ)
    (comp : List (String × ℚ)) (s : VolState) :
    set_port port F T P comp true s =
      comp.foldl (fun t kv => fixVar (port, PVar.mole_frac kv.1) kv.2 t)
        (fixVar (port, PVar.pressure) P
          (fixVar (port, PVar.temperature) T
            (fixVar (port, PVar.flow_mol) F s))) := rfl

/-- The variables `_set_port(port, F, T, P, comp, fix)` touches: `flow_mol`,
`temperature`, `pressure` and the composition entries listed in `comp`. -/
def portTargets (port : String) (comp : List (String × ℚ)) : List PKey :=
  (port, PVar.flow_mol) :: (port, PVar.temperature) :: (port, PVar.pressure) ::
    comp.map (fun kv => (port, PVar.mole_frac kv.1))

/-- C10: `_set_port` with `fix=False` assigns the given values to the port's
`flow_mol`, `temperature`, `pressure` and the listed composition entries but
changes no variable's fixed status and no other variable's value; with
`fix=True` it fixes exactly those variables to those values and touches no
other variable's value or fixed status. -/
theorem set_port_frame (port : String) (F T P : ℚ)
    (comp : List (String × ℚ)) (s : VolState)
    (hnd : (comp.map Prod.fst).Nodup) :
    ((set_port port F T P comp false s).fixd = s.fixd ∧
      (set_port port F T P comp false s).val (port, PVar.flow_mol) = F ∧
      (set_port port F T P comp false s).val (port, PVar.temperature) = T ∧
      (set_port port F T P comp false s).val (port, PVar.pressure) = P ∧
      (∀ kv ∈ comp, (set_port port F T P comp false s).val
        (port, PVar.mole_frac kv.1) = kv.2) ∧
      (∀ k : PKey, k ∉ portTargets port comp →
        (set_port port F T P comp false s).val k = s.val k)) ∧
    ((set_port port F T P comp true s).val (port, PVar.flow_mol) = F ∧
      (set_port port F T P comp true s).fixd (port, PVar.flow_mol) = true ∧
      (set_port port F T P comp true s).val (port, PVar.temperature) = T ∧
      (set_port port F T P comp true s).fixd (port, PVar.temperature) = true ∧
      (set_port port F T P comp true s).val (port, PVar.pressure) = P ∧
      (set_port port F T P comp true s).fixd (port, PVar.pressure) = true ∧
      (∀ kv ∈ comp, (set_port port F T P comp true s).val
          (port, PVar.mole_frac kv.1) = kv.2 ∧
        (set_port port F T P comp true s).fixd
          (port, PVar.mole_frac kv.1) = true) ∧
      (∀ k : PKey, k ∉ portTargets port comp →
        (set_port port F T P comp true s).val k = s.val k ∧
          (set_port port F T P comp true s).fixd k = s.fixd k)) := by
  have hmfF : ∀ kv' ∈ comp,
      ((port, PVar.flow_mol) : PKey) ≠ (port, PVar.mole_frac kv'.1) :=
    fun kv' _ h => PVar.noConfusion ((Prod.mk.injEq _ _ _ _).mp h).2
  have hmfT : ∀ kv' ∈ comp,
      ((port, PVar.temperature) : PKey) ≠ (port, PVar.mole_frac kv'.1) :=
    fun kv' _ h => PVar.noConfusion ((Prod.mk.injEq _ _ _ _).mp h).2
  have hmfP : ∀ kv' ∈ comp,
      ((port, PVar.pressure) : PKey) ≠ (port, PVar.mole_frac kv'.1) :=
    fun kv' _ h => PVar.noConfusion ((Prod.mk.injEq _ _ _ _).mp h).2
  have hPF : ((port, PVar.flow_mol) : PKey) ≠ (port, PVar.pressure) :=
    pkey_ne_of_var_ne (by simp)
  have hTF : ((port, PVar.flow_mol) : PKey) ≠ (port, PVar.temperature) :=
    pkey_ne_of_var_ne (by simp)
  have hPT : ((port, PVar.temperature) : PKey) ≠ (port, PVar.pressure) :=
    pkey_ne_of_var_ne (by simp)
  rw [set_port_false_eq, set_port_true_eq]
  refine ⟨⟨?_, ?_, ?_, ?_, ?_, ?_⟩, ?_, ?_, ?_, ?_, ?_, ?_, ?_, ?_⟩
  · rw [setFold_fixd]
    rfl
  · rw [setFold_val_notkey port comp _ _ hmfF,
      setVal_val_ne _ _ _ _ hPF, setVal_val_ne _ _ _ _ hTF, setVal_val_same]
  · rw [setFold_val_notkey port comp _ _ hmfT,
      setVal_val_ne _ _ _ _ hPT, setVal_val_same]
  · rw [setFold_val_notkey port comp _ _ hmfP, setVal_val_same]
  · intro kv hkv
    exact setFold_val_key port comp _ kv hkv hnd
  · intro k hk
    simp only [portTargets, List.mem_cons, List.mem_map, not_or] at hk
    obtain ⟨hk1, hk2, hk3, hk4⟩ := hk
    rw [setFold_val_notkey port comp _ _
        (fun kv' h' he => hk4 ⟨kv', h', he.symm⟩),
      setVal_val_ne _ _ _ _ hk3, setVal_val_ne _ _ _ _ hk2,
      setVal_val_ne _ _ _ _ hk1]
  · rw [fixFold_val_notkey port comp _ _ hmfF,
      fixVar_val_ne _ _ _ _ hPF, fixVar_val_ne _ _ _ _ hTF, fixVar_val_same]
  · rw [fixFold_fixd_notkey port comp _ _ hmfF,
      fixVar_fixd_ne _ _ _ _ hPF, fixVar_fixd_ne _ _ _ _ hTF,
      fixVar_fixd_same]
  · rw [fixFold_val_notkey port comp _ _ hmfT,
      fixVar_val_ne _ _ _ _ hPT, fixVar_val_same]
  · rw [fixFold_fixd_notkey port comp _ _ hmfT,
      fixVar_fixd_ne _ _ _ _ hPT, fixVar_fixd_same]
  · rw [fixFold_val_notkey port comp _ _ hmfP, fixVar_val_same]
  · rw [fixFold_fixd_notkey port comp _ _ hmfP, fixVar_fixd_same]
  · intro kv hkv
    exact ⟨fixFold_val_key port comp _ kv hkv hnd,
      fixFold_fixd_key port comp _ kv hkv hnd⟩
  · intro k hk
    simp only [portTargets, List.mem_cons, List.mem_map, not_or] at hk
    obtain ⟨hk1, hk2, hk3, hk4⟩ := hk
    constructor
    · rw [fixFold_val_notkey port comp _ _
          (fun kv' h' he => hk4 ⟨kv', h', he.symm⟩),
        fixVar_val_ne _ _ _ _ hk3, fixVar_val_ne _ _ _ _ hk2,
        fixVar_val_ne _ _ _ _ hk1]
    · rw [fixFold_fixd_notkey port comp _ _
          (fun kv' h' he => hk4 ⟨kv', h', he.symm⟩),
        fixVar_fixd_ne _ _ _ _ hk3, fixVar_fixd_ne _ _ _ _ hk2,
        fixVar_fixd_ne _ _ _ _ hk1]

/-- Witness for `set_port_frame` at the concrete call
`_set_port(m.fs.air_blower.inlet, F=3000, T=330, P=1.01325e5, air_comp)`
from the all-free state. -/
theorem set_port_frame_witness :
    (air_comp.map Prod.fst).Nodup ∧
      ((set_port "air_blower.inlet" 3000 330 1.01325e5 air_comp true
        blankState).val ("air_blower.inlet", PVar.flow_mol) = 3000 ∧
        (set_port "air_blower.inlet" 3000 330 1.01325e5 air_comp true
          blankState).fixd ("air_blower.inlet", PVar.flow_mol) = true) :=
  ⟨by decide,
    let h := set_port_frame "air_blower.inlet" 3000 330 1.01325e5 air_comp
      blankState (by decide)
    ⟨h.2.1, h.2.2.1⟩⟩

/-- C9 counterexample: at the concrete state `cpuDemoState` the CPU inlet
flow and pressure after the copy-and-recompute handling are *equal* to the
upstream `flash.vap_outlet` values (1000 and 101325), refuting the claim
that the recomputed values generally differ from the upstream port
values. -/
theorem cpu_inlet_recompute_counterexample :
    (runSteps idInit id fg06Steps cpuDemoState).val
        ("CPU.inlet", PVar.flow_mol) =
        cpuDemoState.val ("flash.vap_outlet", PVar.flow_mol) ∧
      (runSteps idInit id fg06Steps cpuDemoState).val
        ("CPU.inlet", PVar.pressure) =
        cpuDemoState.val ("flash.vap_outlet", PVar.pressure) := by
  constructor <;>
    · simp [fg06Steps, runSteps, applyStep, calcFromCon, CPU_inlet_F_rhs,
        CPU_inlet_P_rhs, CPU_inlet_F_coef, CPU_inlet_P_coef, propagateState,
        co2h2oVars, copyVar, setVal, cpuDemoState, Function.update_apply]
      norm_num

/-! ## C8: scaling is purely advisory

`iscale.constraint_scaling_transform` and `iscale.set_scaling_factor` are
idaes framework routines (not under `src/`).  Modelled from the spec: the
scaling advisor assigns per-constraint and per-variable numeric scale factors
used only to improve the conditioning of the solver's internal linear
system.  A model is a list of named constraints, each an original residual
together with its current scaling-transform factor (the transform with
`overwrite=True` replaces the stored factor); variable scale factors live in
a side annotation that no equation reads. -/

/-- An equation-oriented model over variable assignments of type `α`: named
constraints `(name, scaling factor, original residual)` — the equation posed
to the solver is `factor * residual = 0` — and the per-variable scaling
annotation. -/
structure ScaledModel (α : Type) where
  cons : List (String × ℚ × (α → ℚ))
  varScale : String → ℚ

/-- `iscale.constraint_scaling_transform(c, k, overwrite=True)` applied to
every constraint named `name`: replace its stored scaling factor by `k`. -/
def constraint_scaling_transform {α : Type} (name : String) (k : ℚ)
    (M : ScaledModel α) : ScaledModel α :=
  { M with cons := M.cons.map (fun c => if c.1 = name then (c.1, k, c.2.2) else c) }

/-- `iscale.set_scaling_factor(v, k)`: a per-variable annotation only. -/
def set_scaling_factor {α : Type} (name : String) (k : ℚ)
    (M : ScaledModel α) : ScaledModel α :=
  { M with varScale := Function.update M.varScale name k }

/-- One statement of `additional_scaling` / `additional_scaling_2`. -/
inductive ScaleStep where
  | conT (name : String) (k : ℚ)
  | varS (name : String) (k : ℚ)
  /-- `iscale.calculate_scaling_factors(m)`: fills in default scaling
  annotations, touching no equation. -/
  | calcAll
deriving DecidableEq

def applyScaleStep {α : Type} : ScaleStep → ScaledModel α → ScaledModel α
  | ScaleStep.conT n k, M => constraint_scaling_transform n k M
  | ScaleStep.varS n k, M => set_scaling_factor n k M
  | ScaleStep.calcAll, M => M

def applyScaleSteps {α : Type} (steps : List ScaleStep) (M : ScaledModel α) :
    ScaledModel α :=
  steps.foldl (fun M st => applyScaleStep st M) M

/-- The statement-by-statement transcription of `additional_scaling(m)`
(source lines 1540-1617), one entry per constraint group transformed or
variable group annotated. -/
def additional_scaling_steps : List ScaleStep :=
  [ScaleStep.conT "oxygen_preheater.heat_transfer_equation" 1e-5,
   ScaleStep.conT "ng_preheater.heat_transfer_equation" 1e-5,
   ScaleStep.conT "bhx1.heat_transfer_equation" 1e-5,
   ScaleStep.conT "air_preheater_1.heat_transfer_equation" 1e-5,
   ScaleStep.conT "air_preheater_2.heat_transfer_equation" 1e-5,
   ScaleStep.conT "mxf1.enthalpy_mixing_equations" 1e-6,
   ScaleStep.conT "mxa1.enthalpy_mixing_equations" 1e-6,
   ScaleStep.conT "oxygen_preheater.unit_heat_balance" 1e-5,
   ScaleStep.conT "ng_preheater.unit_heat_balance" 1e-5,
   ScaleStep.conT "bhx1.unit_heat_balance" 1e-5,
   ScaleStep.conT "air_preheater_1.unit_heat_balance" 1e-5,
   ScaleStep.conT "air_preheater_2.unit_heat_balance" 1e-5,
   ScaleStep.conT "mxf1.fmxpress_eqn" 1e-5,
   ScaleStep.conT "mxa1.amxpress_eqn" 1e-5,
   ScaleStep.conT "cmb_mix.pressure_eqn" 1e-5,
   ScaleStep.conT "cmb_mix.enthalpy_mixing_equations" 1e-6,
   ScaleStep.conT "cmb.control_volume.enthalpy_balances" 1e-6,
   ScaleStep.conT "cmb.control_volume.properties_in.total_flow_balance" 1e-1,
   ScaleStep.conT "cmb.control_volume.properties_in.component_flow_balances"
     1e3,
   ScaleStep.conT "cmb.control_volume.material_balances" 1e-1,
   ScaleStep.conT "cmb.control_volume.rate_reaction_stoichiometry_constraint"
     1e-1,
   ScaleStep.conT
     "pre_oxycombustor_translator.pre_oxycombustor_translator_F" 1e-1,
   ScaleStep.conT
     "pre_oxycombustor_translator.pre_oxycombustor_translator_P" 1e-5,
   ScaleStep.conT
     "post_oxycombustor_translator.post_oxycombustor_translator_F" 1e-1,
   ScaleStep.conT
     "post_oxycombustor_translator.post_oxycombustor_translator_P" 1e-5,
   ScaleStep.conT "aux_boiler_feed_pump.eq_work" 1e-10,
   ScaleStep.conT "soec.fc.flow_mol_eqn" 1e-3,
   ScaleStep.conT "soec.ac.mass_balance_eqn" 1e-3,
   ScaleStep.conT "mxa1.material_mixing_equations" 1e-3,
   ScaleStep.conT "soec.ac.mass_balance_eqn" 1e-6,
   ScaleStep.varS "cmb.control_volume.rate_reaction_extent" 1e-1,
   ScaleStep.varS "cmb.control_volume.rate_reaction_generation" 1e-1,
   ScaleStep.calcAll]

/-- The statement-by-statement transcription of `additional_scaling_2(m)`
(source lines 1620-1670). -/
def additional_scaling_2_steps : List ScaleStep :=
  [ScaleStep.varS "soec_air_HRSG_1.control_volume.heat" 1e-5,
   ScaleStep.varS "soec_air_HRSG_2.control_volume.heat" 1e-5,
   ScaleStep.varS "fluegas_HRSG.control_volume.heat" 1e-5,
   ScaleStep.varS "condenser.control_volume.heat" 1e-4,
   ScaleStep.varS "flash.control_volume.heat" 1e-4,
   ScaleStep.conT "hcmp03.isentropic_pressure" 1e-6,
   ScaleStep.conT "condenser.control_volume.enthalpy_balances" 1e-3,
   ScaleStep.conT "CPU_translator.CPU_translator_F" 1e-3,
   ScaleStep.conT "CPU_translator.CPU_translator_P" 1e-3,
   ScaleStep.conT "CPU_translator.properties_out.eq_mole_frac_tdew" 1e-3,
   ScaleStep.conT "CPU_translator.properties_out.equilibrium_constraint" 1e-3,
   ScaleStep.conT
     "condenser.control_volume.properties_in.eq_mole_frac_tdew" 1e-3,
   ScaleStep.conT
     "condenser.control_volume.properties_out.eq_mole_frac_tdew" 1e-3,
   ScaleStep.conT
     "condenser.control_volume.properties_in.equilibrium_constraint" 1e-3,
   ScaleStep.conT
     "condenser.control_volume.properties_out.equilibrium_constraint" 1e-3,
   ScaleStep.conT "flash.control_volume.properties_in.eq_mole_frac_tdew" 1e-3,
   ScaleStep.conT "flash.control_volume.properties_out.eq_mole_frac_tdew"
     1e-3,
   ScaleStep.conT
     "flash.control_volume.properties_in.equilibrium_constraint" 1e-3,
   ScaleStep.conT
     "flash.control_volume.properties_out.equilibrium_constraint" 1e-3,
   ScaleStep.conT "fluegas_HRSG.control_volume.enthalpy_balances" 1e-3,
   ScaleStep.conT "CPU.pureco2_pressure_eq" 1e-5,
   ScaleStep.conT "CPU.water_pressure_eq" 1e-3,
   ScaleStep.conT "CPU.vent_pressure_eq" 1e-3,
   ScaleStep.calcAll]

/-- The assignment `x` satisfies every (scaled) equation of the model as
posed to the solver: `factor * residual = 0`. -/
def ScaledSol {α : Type} (M : ScaledModel α) (x : α) : Prop :=
  ∀ c ∈ M.cons, c.2.1 * c.2.2 x = 0

/-- The assignment `x` satisfies every original (unscaled) physical
equation of the model: `residual = 0`. -/
def UnscaledSol {α : Type} (M : ScaledModel α) (x : α) : Prop :=
  ∀ c ∈ M.cons, c.2.2 x = 0

/-- A scaling statement with a nonvanishing constraint factor. -/
def stepNonzero : ScaleStep → Prop
  | ScaleStep.conT _ k => k ≠ 0
  | _ => True

lemma applyScaleStep_unscaled {α : Type} (st : ScaleStep)
    (M : ScaledModel α) (x : α) :
    UnscaledSol (applyScaleStep st M) x ↔ UnscaledSol M x := by
  cases st with
  | conT n k =>
      unfold applyScaleStep constraint_scaling_transform UnscaledSol
      constructor
      · intro h c hc
        have hm := h _ (List.mem_map_of_mem _ hc)
        by_cases hcn : c.1 = n
        · rw [if_pos hcn] at hm
          exact hm
        · rw [if_neg hcn] at hm
          exact hm
      · intro h c hc
        rcases List.mem_map.mp hc with ⟨c0, hc0, rfl⟩
        by_cases hcn : c0.1 = n
        · rw [if_pos hcn]
          exact h c0 hc0
        · rw [if_neg hcn]
          exact h c0 hc0
  | varS n k => exact Iff.rfl
  | calcAll => exact Iff.rfl

lemma applyScaleStep_nonzero {α : Type} (st : ScaleStep)
    (hst : stepNonzero st) (M : ScaledModel α)
    (hM : ∀ c ∈ M.cons, c.2.1 ≠ 0) :
    ∀ c ∈ (applyScaleStep st M).cons, c.2.1 ≠ 0 := by
  cases st with
  | conT n k =>
      intro c hc
      rcases List.mem_map.mp hc with ⟨c0, hc0, rfl⟩
      by_cases hcn : c0.1 = n
      · rw [if_pos hcn]
        exact hst
      · rw [if_neg hcn]
        exact hM c0 hc0
  | varS n k => exact hM
  | calcAll => exact hM

lemma scaled_iff_unscaled {α : Type} (M : ScaledModel α) (x : α)
    (hM : ∀ c ∈ M.cons, c.2.1 ≠ 0) : ScaledSol M x ↔ UnscaledSol M x := by
  unfold ScaledSol UnscaledSol
  constructor
  · intro h c hc
    rcases mul_eq_zero.mp (h c hc) with h0 | h0
    · exact absurd h0 (hM c hc)
    · exact h0
  · intro h c hc
    rw [h c hc, mul_zero]

lemma applyScaleSteps_unscaled {α : Type} :
    ∀ (steps : List ScaleStep) (M : ScaledModel α) (x : α),
      UnscaledSol (applyScaleSteps steps M) x ↔ UnscaledSol M x
  | [], _, _ => Iff.rfl
  | st :: r, M, x =>
      (applyScaleSteps_unscaled r _ x).trans (applyScaleStep_unscaled st M x)

lemma applyScaleSteps_nonzero {α : Type} :
    ∀ (steps : List ScaleStep), (∀ st ∈ steps, stepNonzero st) →
      ∀ (M : ScaledModel α), (∀ c ∈ M.cons, c.2.1 ≠ 0) →
      ∀ c ∈ (applyScaleSteps steps M).cons, c.2.1 ≠ 0
  | [], _, _, hM => hM
  | st :: r, hs, M, hM =>
      applyScaleSteps_nonzero r
        (fun x hx => hs x (List.mem_cons_of_mem _ hx)) _
        (applyScaleStep_nonzero st (hs st (List.mem_cons_self _ _)) M hM)

lemma additional_scaling_steps_nonzero :
    ∀ st ∈ additional_scaling_steps, stepNonzero st := by
  intro st hst
  fin_cases hst <;> first | trivial | norm_num [stepNonzero]

lemma additional_scaling_2_steps_nonzero :
    ∀ st ∈ additional_scaling_2_steps, stepNonzero st := by
  intro st hst
  fin_cases hst <;> first | trivial | norm_num [stepNonzero]

/-- C8: applying the per-constraint and per-variable scale factors of
`additional_scaling` and `additional_scaling_2` is purely advisory — since
every transform factor is nonzero, the scaled model and the unscaled model
have exactly the same solution set: an assignment satisfies the scaled
equations iff it satisfied the equations before scaling iff it satisfies the
original physical residuals. -/
theorem scaling_advisory_preserves_solutions {α : Type} (M : ScaledModel α)
    (x : α) (hM : ∀ c ∈ M.cons, c.2.1 ≠ 0) :
    (ScaledSol (applyScaleSteps additional_scaling_2_steps
        (applyScaleSteps additional_scaling_steps M)) x ↔ ScaledSol M x) ∧
      (ScaledSol (applyScaleSteps additional_scaling_2_steps
        (applyScaleSteps additional_scaling_steps M)) x ↔
        UnscaledSol M x) := by
  have h1 := applyScaleSteps_nonzero additional_scaling_steps
    additional_scaling_steps_nonzero M hM
  have h2 := applyScaleSteps_nonzero additional_scaling_2_steps
    additional_scaling_2_steps_nonzero _ h1
  have e1 : ScaledSol (applyScaleSteps additional_scaling_2_steps
      (applyScaleSteps additional_scaling_steps M)) x ↔ UnscaledSol M x :=
    (scaled_iff_unscaled _ x h2).trans
      ((applyScaleSteps_unscaled _ _ x).trans
        (applyScaleSteps_unscaled _ _ x))
  exact ⟨e1.trans (scaled_iff_unscaled M x hM).symm, e1⟩

/-! ## C7: `compute_order` fails on a remaining cycle

Modelled from the spec: the repository contains no general `compute_order`
(the initialization order is a fixed hand-written sequence); the spec
describes the abstract operation — "Removes tear arcs, returns a sequence of
nodes such that for every regular arc the source node precedes the
destination node.  Fails with `CyclicGraphError` if removing the declared
tear arcs does not yield an acyclic graph."  We realize it as Kahn's
algorithm: repeatedly emit a node with no incoming arc from the remaining
nodes; when no such node exists the remaining set is returned as the
`CyclicGraphError` payload.  The operation is a pure graph computation — no
numeric state is read or written, and the error is returned directly to the
caller (no retry). -/

/-- A node/arc graph of unit operations. -/
structure UnitGraph where
  nodes : List String
  arcs : List (String × String)

/-- Remove the declared tear arcs from the graph. -/
def removeTears (g : UnitGraph) (tears : List (String × String)) : UnitGraph :=
  { g with arcs := g.arcs.filter (fun e => decide (e ∉ tears)) }

/-- Does `v` have an incoming arc from one of the remaining nodes? -/
def hasIncoming (arcs : List (String × String)) (rem : List String)
    (v : String) : Bool :=
  rem.any (fun u => decide ((u, v) ∈ arcs))

/-- Kahn's algorithm with explicit fuel: emit a remaining node with no
incoming arc from the remaining nodes; if none exists, fail with the
remaining (cyclic) node set. -/
def kahnAux (arcs : List (String × String)) :
    ℕ → List String → Except (List String) (List String)
  | _, [] => Except.ok []
  | 0, v :: rest => Except.error (v :: rest)
  | Nat.succ n, v :: rest =>
      match (v :: rest).find?
          (fun w => !(hasIncoming arcs (v :: rest) w)) with
      | none => Except.error (v :: rest)
      | some w =>
          (kahnAux arcs n ((v :: rest).erase w)).map (fun ord => w :: ord)

/-- Modelled from the spec: `compute_order(graph)` removes the tear arcs and
topologically sorts the rest, failing with the remaining cyclic node set when
the residual graph is not acyclic. -/
def compute_order (g : UnitGraph) (tears : List (String × String)) :
    Except (List String) (List String) :=
  kahnAux (removeTears g tears).arcs g.nodes.length g.nodes

/-- A nonempty directed path through `arcs` staying inside the node set
`r`. -/
inductive PathIn (arcs : List (String × String)) (r : List String) :
    String → String → Prop where
  | single {u v : String} : u ∈ r → v ∈ r → (u, v) ∈ arcs → PathIn arcs r u v
  | cons {u v w : String} : u ∈ r → (u, v) ∈ arcs → PathIn arcs r v w →
      PathIn arcs r u w

/-- The arcs admit a (nonempty) cycle through the node set `r`. -/
def HasCycleIn (arcs : List (String × String)) (r : List String) : Prop :=
  ∃ v ∈ r, PathIn arcs r v v

lemma pathIn_head_mem {arcs : List (String × String)} {r : List String}
    {u v : String} (h : PathIn arcs r u v) : u ∈ r := by
  cases h <;> assumption

lemma kahnAux_error_stuck (arcs : List (String × String)) :
    ∀ (fuel : ℕ) (rem r : List String), rem.length ≤ fuel →
      kahnAux arcs fuel rem = Except.error r →
      r ≠ [] ∧ r ⊆ rem ∧ ∀ v ∈ r, hasIncoming arcs r v = true
  | fuel, [], r, _, herr => by
      cases fuel <;> simp [kahnAux] at herr
  | 0, v :: rest, r, hle, _ => by
      simp at hle
  | Nat.succ n, v :: rest, r, hle, herr => by
      unfold kahnAux at herr
      cases hfind : (v :: rest).find?
          (fun w => !(hasIncoming arcs (v :: rest) w)) with
      | none =>
          rw [hfind] at herr
          have herr' : (Except.error (v :: rest) :
              Except (List String) (List String)) = Except.error r := herr
          injection herr' with herr'
          subst herr' 
          refine ⟨List.cons_ne_nil _ _, List.Subset.refl _, ?_⟩
          intro w hw
          have := List.find?_eq_none.mp hfind w hw
          simpa using this
      | some w =>
          rw [hfind] at herr
          have herr' : (kahnAux arcs n ((v :: rest).erase w)).map
              (fun ord => w :: ord) = Except.error r := herr
          cases hrec : kahnAux arcs n ((v :: rest).erase w) with
          | ok o =>
              rw [hrec] at herr'
              simp [Except.map] at herr'
          | error r' =>
              rw [hrec] at herr'
              have hrr : r' = r := by simpa [Except.map] using herr' 
              subst hrr
              have hwmem : w ∈ v :: rest := List.mem_of_find?_eq_some hfind
              have hlen : ((v :: rest).erase w).length ≤ n := by
                rw [List.length_erase_of_mem hwmem]
                simpa using Nat.le_of_succ_le_succ
                  (by simpa using hle)
              obtain ⟨h1, h2, h3⟩ :=
                kahnAux_error_stuck arcs n ((v :: rest).erase w) r' hlen hrec
              exact ⟨h1, h2.trans (List.erase_subset _ _), h3⟩

lemma cycle_of_stuck (arcs : List (String × String)) (r : List String)
    (hne : r ≠ []) (hstuck : ∀ v ∈ r, hasIncoming arcs r v = true) :
    HasCycleIn arcs r := by
  have hpred : ∀ v ∈ r, ∃ u, u ∈ r ∧ (u, v) ∈ arcs := by
    intro v hv
    rcases List.any_eq_true.mp (hstuck v hv) with ⟨u, hu, hdec⟩
    exact ⟨u, hu, of_decide_eq_true hdec⟩
  choose pred hp1 hp2 using hpred
  obtain ⟨v0, hv0⟩ := List.exists_mem_of_ne_nil r hne
  set stepB : {x : String // x ∈ r} → {x : String // x ∈ r} :=
    fun p => ⟨pred p.1 p.2, hp1 p.1 p.2⟩ with hgdef
  set f : ℕ → {x : String // x ∈ r} := fun n => stepB^[n] ⟨v0, hv0⟩ with hfdef
  have hstep : ∀ n, f (n + 1) = stepB (f n) := by
    intro n
    simp only [hfdef]
    exact Function.iterate_succ_apply' stepB n _
  have hedge : ∀ n, ((f (n + 1)).1, (f n).1) ∈ arcs := by
    intro n
    rw [hstep n]
    exact hp2 (f n).1 (f n).2
  have hpath : ∀ i j, i < j → PathIn arcs r (f j).1 (f i).1 := by
    intro i j
    induction j with
    | zero => intro h; omega
    | succ j ih =>
        intro hij
        rcases Nat.lt_succ_iff_lt_or_eq.mp hij with h | h
        · exact PathIn.cons (f (j + 1)).2 (hedge j) (ih h)
        · subst h
          first
          | exact PathIn.single (f (j + 1)).2 (f j).2 (hedge j)
          | exact PathIn.single (f (i + 1)).2 (f i).2 (hedge i)
  have hcard : (r.toFinset).card <
      (Finset.univ : Finset (Fin (r.length + 1))).card := by
    rw [Finset.card_univ, Fintype.card_fin]
    exact Nat.lt_succ_of_le (List.toFinset_card_le r)
  have hmaps : ∀ a ∈ (Finset.univ : Finset (Fin (r.length + 1))),
      (f a.1).1 ∈ r.toFinset :=
    fun a _ => List.mem_toFinset.mpr (f a.1).2
  obtain ⟨a, -, b, -, hab, heq⟩ :=
    Finset.exists_ne_map_eq_of_card_lt_of_maps_to hcard hmaps
  have hvne : a.1 ≠ b.1 := fun h => hab (Fin.ext h)
  rcases Nat.lt_or_ge a.1 b.1 with h | h
  · refine ⟨(f a.1).1, (f a.1).2, ?_⟩
    have := hpath a.1 b.1 h
    rw [← heq] at this
    exact this
  · have h' : b.1 < a.1 := lt_of_le_of_ne h (Ne.symm hvne)
    exact ⟨(f b.1).1, (f b.1).2, by
      have := hpath b.1 a.1 h'
      rw [heq] at this
      exact this⟩

lemma kahnAux_ok_topo (arcs : List (String × String)) :
    ∀ (fuel : ℕ) (rem order : List String), rem.Nodup →
      kahnAux arcs fuel rem = Except.ok order →
      (∀ v ∈ order, v ∈ rem) ∧
        (∀ u v, u ∈ rem → v ∈ rem → (u, v) ∈ arcs →
          order.indexOf u < order.indexOf v)
  | fuel, [], order, _, hok => by
      cases fuel <;>
        · have hord : order = [] := by simpa [kahnAux] using hok.symm
          subst hord
          exact ⟨fun v hv => absurd hv (List.not_mem_nil _),
            fun u v hu _ _ => absurd hu (List.not_mem_nil _)⟩
  | 0, v :: rest, order, _, hok => by
      simp [kahnAux] at hok
  | Nat.succ n, v :: rest, order, hnd, hok => by
      unfold kahnAux at hok
      cases hfind : (v :: rest).find?
          (fun w => !(hasIncoming arcs (v :: rest) w)) with
      | none =>
          rw [hfind] at hok
          have hok' : (Except.error (v :: rest) :
              Except (List String) (List String)) = Except.ok order := hok
          simp at hok'
      | some w =>
          rw [hfind] at hok
          have hok' : (kahnAux arcs n ((v :: rest).erase w)).map
              (fun ord => w :: ord) = Except.ok order := hok
          cases hrec : kahnAux arcs n ((v :: rest).erase w) with
          | error r' =>
              rw [hrec] at hok'
              simp [Except.map] at hok'
          | ok ord' =>
              rw [hrec] at hok'
              have hord : w :: ord' = order := by
                simpa [Except.map] using hok' 
              subst hord
              have hwmem : w ∈ v :: rest := List.mem_of_find?_eq_some hfind
              have hwno : hasIncoming arcs (v :: rest) w = false := by
                have := List.find?_some hfind
                simpa using this
              have hnde : ((v :: rest).erase w).Nodup := hnd.erase _
              obtain ⟨ihsub, ihtopo⟩ :=
                kahnAux_ok_topo arcs n ((v :: rest).erase w) ord' hnde hrec
              refine ⟨?_, ?_⟩
              · intro x hx
                rcases List.mem_cons.mp hx with rfl | hx'
                · exact hwmem
                · exact List.erase_subset _ _ (ihsub x hx')
              · intro x y hx hy hedge
                by_cases hyw : y = w
                · exfalso
                  subst hyw
                  have : hasIncoming arcs (v :: rest) y = true :=
                    List.any_eq_true.mpr ⟨x, hx, decide_eq_true hedge⟩
                  rw [hwno] at this
                  exact Bool.false_ne_true this
                · by_cases hxw : x = w
                  · subst hxw
                    rw [List.indexOf_cons_self,
                      List.indexOf_cons_ne _ (fun h => hyw h.symm)]
                    exact Nat.succ_pos _
                  · have hx' : x ∈ (v :: rest).erase w :=
                      (List.Nodup.mem_erase_iff hnd).mpr ⟨hxw, hx⟩
                    have hy' : y ∈ (v :: rest).erase w :=
                      (List.Nodup.mem_erase_iff hnd).mpr ⟨hyw, hy⟩
                    have := ihtopo x y hx' hy' hedge
                    rw [List.indexOf_cons_ne _ (fun h => hxw h.symm),
                      List.indexOf_cons_ne _ (fun h => hyw h.symm)]
                    exact Nat.succ_lt_succ this

lemma pathIn_index_lt (arcs : List (String × String))
    (rem order : List String)
    (htopo : ∀ u v, u ∈ rem → v ∈ rem → (u, v) ∈ arcs →
      order.indexOf u < order.indexOf v) :
    ∀ {u v : String}, PathIn arcs rem u v →
      order.indexOf u < order.indexOf v := by
  intro u v hp
  induction hp with
  | single hu hv he => exact htopo _ _ hu hv he
  | cons hu he hp ih => exact (htopo _ _ hu (pathIn_head_mem hp) he).trans ih

/-- C7: whenever removing the declared tear arcs does not yield an acyclic
graph, `compute_order` fails, surfacing to the caller an error payload that
identifies at least one remaining cycle: the payload is a nonempty node set
through which the residual arcs admit a cycle.  `compute_order` is a pure
graph computation, so the detection involves no numeric work, and the error
is returned directly — no retry. -/
theorem compute_order_fails_on_residual_cycle (g : UnitGraph)
    (tears : List (String × String)) (hnd : g.nodes.Nodup)
    (hcyc : HasCycleIn (removeTears g tears).arcs g.nodes) :
    ∃ r, compute_order g tears = Except.error r ∧ r ≠ [] ∧
      HasCycleIn (removeTears g tears).arcs r := by
  cases h : compute_order g tears with
  | error r =>
      have hstuck := kahnAux_error_stuck (removeTears g tears).arcs
        g.nodes.length g.nodes r le_rfl h
      exact ⟨r, rfl, hstuck.1, cycle_of_stuck _ r hstuck.1 hstuck.2.2⟩
  | ok order =>
      exfalso
      obtain ⟨v, hv, hp⟩ := hcyc
      have htopo := (kahnAux_ok_topo (removeTears g tears).arcs
        g.nodes.length g.nodes order hnd h).2
      exact absurd (pathIn_index_lt _ _ _ htopo hp) (lt_irrefl _)

/-- A two-node cycle `A → B → A` plus an escape arc `B → C`, with no
declared tears: the residual graph is cyclic. -/
def demoGraph : UnitGraph :=
  ⟨["A", "B", "C"], [("A", "B"), ("B", "A"), ("B", "C")]⟩

lemma demoCycle :
    PathIn (removeTears demoGraph []).arcs demoGraph.nodes "A" "A" :=
  @PathIn.cons (removeTears demoGraph []).arcs demoGraph.nodes "A" "B" "A"
    (by decide) (by decide)
    (@PathIn.single (removeTears demoGraph []).arcs demoGraph.nodes "B" "A"
      (by decide) (by decide) (by decide))

/-- Witness for `compute_order_fails_on_residual_cycle` at the concrete
two-node recycle graph with an empty tear set. -/
theorem compute_order_fails_on_residual_cycle_witness :
    demoGraph.nodes.Nodup ∧
      HasCycleIn (removeTears demoGraph []).arcs demoGraph.nodes ∧
      (∃ r, compute_order demoGraph [] = Except.error r ∧ r ≠ [] ∧
        HasCycleIn (removeTears demoGraph []).arcs r) :=
  ⟨by decide, ⟨"A", by decide, demoCycle⟩,
    compute_order_fails_on_residual_cycle demoGraph [] (by decide)
      ⟨"A", by decide, demoCycle⟩⟩

/-- A one-constraint demonstration model (`y - 5 = 0`, factor 1). -/
def demoModel : ScaledModel ℚ :=
  ⟨[("c1", 1, fun y => y - 5)], fun _ => 1⟩

/-- Witness for `scaling_advisory_preserves_solutions` at the concrete
one-constraint model and assignment `y = 5`. -/
theorem scaling_advisory_preserves_solutions_witness :
    (∀ c ∈ demoModel.cons, c.2.1 ≠ 0) ∧
      ((ScaledSol (applyScaleSteps additional_scaling_2_steps
          (applyScaleSteps additional_scaling_steps demoModel)) 5 ↔
          ScaledSol demoModel 5) ∧
        (ScaledSol (applyScaleSteps additional_scaling_2_steps
          (applyScaleSteps additional_scaling_steps demoModel)) 5 ↔
          UnscaledSol demoModel 5)) :=
  ⟨by simp [demoModel],
    scaling_advisory_preserves_solutions demoModel 5 (by simp [demoModel])⟩

end Rsofc
